import Mathlib

/-
Verification of the dialogue engine of the voice-agent repository.

Shallow embedding of:
  * the dialogue-state tracker (crates/agent/src/dst/slots.rs, dst/mod.rs),
  * the slot extractor's amount path (crates/agent/src/dst/extractor.rs),
  * archival memory (crates/agent/src/memory/archival.rs),
  * agentic memory compaction (crates/agent/src/memory/mod.rs),
  * the voice session state machine (voice-agent-rust/crates/agent/src/voice_session.rs).

Rust f32/f64 confidences and amounts are modelled as exact rationals; every
property proved here is insensitive to rounding because each comparison in the
source is made on the same value that is returned or stored.  Timestamps
(chrono Utc::now) are dropped: no logic in the embedded code reads them.
-/

set_option allowUnsafeReducibility true
attribute [semireducible] Rat.add Rat.mul Rat.inv Rat.sub

namespace VoiceAgent

/-! ## Slot values (dst/slots.rs, SlotValue) -/

/-- Slot value with confidence and metadata (dst/slots.rs lines 296-324).
Confidence `f32` is modelled as a rational. -/
structure SlotValue where
  value : String
  confidence : Rat
  turnSet : Nat
  confirmed : Bool
  deriving Repr, DecidableEq

/-- Mirror of SlotValue::new (confirmed starts false). -/
def SlotValue.mk' (value : String) (confidence : Rat) (turn : Nat) : SlotValue :=
  { value := value, confidence := confidence, turnSet := turn, confirmed := false }

/-- Mirror of SlotValue::confirm: sets confirmed and forces confidence to 1.0. -/
def SlotValue.confirm (v : SlotValue) : SlotValue :=
  { v with confirmed := true, confidence := 1 }

/-! ## Conversation goals (dst/slots.rs, ConversationGoal) -/

/-- Conversation goal enum (dst/slots.rs lines 66-81). -/
inductive ConversationGoal where
  | Exploration
  | BalanceTransfer
  | NewLoan
  | EligibilityCheck
  | BranchVisit
  | LeadCapture
  deriving Repr, DecidableEq

/-- Next best action for the agent (dst/slots.rs lines 203-217). -/
inductive NextBestAction where
  | CallTool (tool : String)
  | AskFor (slot : String)
  | OfferAppointment
  | ExplainProcess
  | DiscoverIntent
  | CaptureLead
  deriving Repr, DecidableEq

namespace ConversationGoal

/-- Mirror of ConversationGoal::required_slots (dst/slots.rs lines 85-94). -/
def requiredSlots : ConversationGoal → List String
  | Exploration => []
  | BalanceTransfer => ["current_lender", "loan_amount"]
  | NewLoan => ["gold_weight", "loan_amount"]
  | EligibilityCheck => ["gold_weight"]
  | BranchVisit => ["location"]
  | LeadCapture => ["customer_name", "phone_number"]

/-- Mirror of ConversationGoal::next_action (dst/slots.rs lines 109-174):
decision tree over the set of filled slot names. -/
def nextAction (g : ConversationGoal) (filled : List String) : NextBestAction :=
  match g with
  | BalanceTransfer =>
    let hasLender := filled.contains "current_lender"
    let hasAmount := filled.contains "loan_amount"
    let hasRate := filled.contains "current_interest_rate"
    let hasLocation := filled.contains "location"
    let hasContact := filled.contains "phone_number" || filled.contains "customer_name"
    if hasLender && hasAmount && hasRate then
      NextBestAction.CallTool "calculate_savings"
    else if hasLender && hasAmount && !hasRate then
      NextBestAction.AskFor "current_interest_rate"
    else if hasLender && !hasAmount then
      NextBestAction.AskFor "loan_amount"
    else if hasLender && hasAmount && hasLocation && !hasContact then
      NextBestAction.OfferAppointment
    else if hasLender && hasAmount && !hasLocation then
      NextBestAction.AskFor "location"
    else
      NextBestAction.ExplainProcess
  | NewLoan =>
    let hasWeight := filled.contains "gold_weight"
    let hasAmount := filled.contains "loan_amount"
    if hasWeight then
      NextBestAction.CallTool "check_eligibility"
    else if hasAmount && !hasWeight then
      NextBestAction.AskFor "gold_weight"
    else
      NextBestAction.AskFor "loan_amount"
  | EligibilityCheck =>
    if filled.contains "gold_weight" then
      NextBestAction.CallTool "check_eligibility"
    else
      NextBestAction.AskFor "gold_weight"
  | BranchVisit =>
    if filled.contains "location" then
      NextBestAction.CallTool "find_branches"
    else
      NextBestAction.AskFor "location"
  | LeadCapture =>
    let hasName := filled.contains "customer_name"
    let hasPhone := filled.contains "phone_number"
    if hasName && hasPhone then
      NextBestAction.CallTool "capture_lead"
    else if hasName && !hasPhone then
      NextBestAction.AskFor "phone_number"
    else
      NextBestAction.AskFor "customer_name"
  | Exploration => NextBestAction.DiscoverIntent

/-- Mirror of ConversationGoal::from_intent (dst/slots.rs lines 177-186). -/
def fromIntent (intent : String) : ConversationGoal :=
  if intent = "balance_transfer" || intent = "switch_lender" || intent = "loan_transfer" then
    BalanceTransfer
  else if intent = "eligibility_inquiry" || intent = "eligibility_check" then
    EligibilityCheck
  else if intent = "new_loan" || intent = "loan_inquiry" || intent = "gold_loan" then
    NewLoan
  else if intent = "branch_inquiry" || intent = "find_branch" || intent = "schedule_visit"
      || intent = "appointment_request" then
    BranchVisit
  else if intent = "callback_request" || intent = "capture_lead" || intent = "interested"
      || intent = "sms_request" then
    LeadCapture
  else
    Exploration

end ConversationGoal

/-! ## Slot store

The Rust struct GoldLoanDialogueState keeps seventeen named Option<SlotValue>
fields plus a custom_slots HashMap; every access dispatches uniformly on the
slot name (get_slot_value / set_slot_value / clear_slot / mark_confirmed all
match on the same seventeen names with a custom-slot fallback).  We embed the
store as an association list keyed by slot name, which realises exactly that
dispatch; the seventeen canonical names are kept for filled_slots order. -/

/-- Canonical slot names, in the field order of GoldLoanDialogueState
(dst/slots.rs lines 331-399; the key "gold_weight" maps to the field
gold_weight_grams). -/
def knownSlotNames : List String :=
  ["customer_name", "phone_number", "location", "pincode",
   "gold_weight", "gold_purity", "gold_item_type",
   "loan_amount", "loan_purpose", "loan_tenure", "urgency",
   "current_lender", "current_outstanding", "current_interest_rate",
   "preferred_date", "preferred_time", "preferred_branch"]

/-- Association-list lookup by slot name. -/
def lookupSlot : List (String × SlotValue) → String → Option SlotValue
  | [], _ => none
  | (k, v) :: rest, n => if k = n then some v else lookupSlot rest n

/-- Store a slot value under a name, replacing any previous binding. -/
def storeSlot (l : List (String × SlotValue)) (n : String) (v : SlotValue) :
    List (String × SlotValue) :=
  (n, v) :: l.filter (fun p => p.1 ≠ n)

/-- Remove a slot binding. -/
def dropSlot (l : List (String × SlotValue)) (n : String) : List (String × SlotValue) :=
  l.filter (fun p => p.1 ≠ n)

/-- Apply SlotValue::confirm to the binding of a name, if present. -/
def confirmSlotAt (l : List (String × SlotValue)) (n : String) : List (String × SlotValue) :=
  l.map (fun p => (p.1, if p.1 = n then p.2.confirm else p.2))

/-- Membership-preserving set insert on a list of names (HashSet::insert). -/
def insertName (l : List String) (n : String) : List String :=
  if n ∈ l then l else n :: l

/-- Set removal on a list of names (HashSet::remove). -/
def removeName (l : List String) (n : String) : List String :=
  l.filter (fun m => m ≠ n)

/-! ## Gold loan dialogue state (dst/slots.rs, GoldLoanDialogueState) -/

/-- Dialogue state (dst/slots.rs lines 330-399).  The seventeen named slot
fields and custom_slots are merged into the association list `slots` (see the
section comment above). -/
structure GoldLoanDialogueState where
  slots : List (String × SlotValue) := []
  primaryIntent : Option String := none
  intentConfidence : Rat := 0
  secondaryIntents : List String := []
  conversationGoal : ConversationGoal := ConversationGoal.Exploration
  goalConfirmed : Bool := false
  goalSetTurn : Nat := 0
  pendingSlots : List String := []
  confirmedSlots : List String := []
  deriving Repr, DecidableEq

namespace GoldLoanDialogueState

/-- Mirror of GoldLoanDialogueState::new / Default. -/
def new : GoldLoanDialogueState := {}

/-- Mirror of get_slot_value (dst/slots.rs lines 902-923). -/
def getSlotValue (st : GoldLoanDialogueState) (n : String) : Option String :=
  (lookupSlot st.slots n).map (fun v => v.value)

/-- Mirror of get_slot_with_confidence (dst/slots.rs lines 926-947). -/
def getSlotWithConfidence (st : GoldLoanDialogueState) (n : String) : Option SlotValue :=
  lookupSlot st.slots n

/-- Mirror of set_slot_value (dst/slots.rs lines 950-975): stores a fresh
SlotValue with turn 0 and confirmed = false. -/
def setSlotValue (st : GoldLoanDialogueState) (n v : String) (confidence : Rat) :
    GoldLoanDialogueState :=
  { st with slots := storeSlot st.slots n (SlotValue.mk' v confidence 0) }

/-- Mirror of clear_slot (dst/slots.rs lines 978-1004): removes the value and
the name from both the pending and the confirmed set. -/
def clearSlot (st : GoldLoanDialogueState) (n : String) : GoldLoanDialogueState :=
  { st with
    pendingSlots := removeName st.pendingSlots n
    confirmedSlots := removeName st.confirmedSlots n
    slots := dropSlot st.slots n }

/-- Mirror of mark_pending (dst/slots.rs lines 862-865). -/
def markPending (st : GoldLoanDialogueState) (n : String) : GoldLoanDialogueState :=
  { st with
    confirmedSlots := removeName st.confirmedSlots n
    pendingSlots := insertName st.pendingSlots n }

/-- Mirror of mark_confirmed (dst/slots.rs lines 868-897): moves the name to
the confirmed set and applies SlotValue::confirm to the stored value. -/
def markConfirmed (st : GoldLoanDialogueState) (n : String) : GoldLoanDialogueState :=
  { st with
    pendingSlots := removeName st.pendingSlots n
    confirmedSlots := insertName st.confirmedSlots n
    slots := confirmSlotAt st.slots n }

/-- Mirror of filled_slots (dst/slots.rs lines 1081-1107): the canonical names
that are filled, then the custom keys.  (The Rust custom_slots HashMap has
unspecified iteration order; every consumer in the source only tests
membership, which this list realises.) -/
def filledSlots (st : GoldLoanDialogueState) : List String :=
  knownSlotNames.filter (fun n => (lookupSlot st.slots n).isSome) ++
    (st.slots.map (fun p => p.1)).filter (fun n => n ∉ knownSlotNames)

/-- Mirror of update_intent (dst/slots.rs lines 540-556). -/
def updateIntent (st : GoldLoanDialogueState) (intent : String) (confidence : Rat) :
    GoldLoanDialogueState :=
  if st.primaryIntent = some intent then
    { st with intentConfidence := confidence }
  else
    let secondary :=
      match st.primaryIntent with
      | some prev => if prev ∈ st.secondaryIntents then st.secondaryIntents
                     else st.secondaryIntents ++ [prev]
      | none => st.secondaryIntents
    { st with
      primaryIntent := some intent
      intentConfidence := confidence
      secondaryIntents := secondary }

/-- Mirror of get_next_action (dst/slots.rs lines 601-604). -/
def getNextAction (st : GoldLoanDialogueState) : NextBestAction :=
  st.conversationGoal.nextAction st.filledSlots

/-- Mirror of missing_required_slots (dst/slots.rs lines 607-615). -/
def missingRequiredSlots (st : GoldLoanDialogueState) : List String :=
  st.conversationGoal.requiredSlots.filter (fun s => s ∉ st.filledSlots)

/-- Mirror of goal_completion (dst/slots.rs lines 629-638): the fraction of
the goal's required slots that are filled (1 when none are required). -/
def goalCompletion (st : GoldLoanDialogueState) : Rat :=
  let required := st.conversationGoal.requiredSlots
  if required.isEmpty then 1
  else
    let filled := st.filledSlots
    ((required.filter (fun s => filled.contains s)).length : Rat) / (required.length : Rat)

/-- Mirror of should_auto_capture_lead (dst/slots.rs lines 682-705). -/
def shouldAutoCaptureLead (st : GoldLoanDialogueState) : Bool :=
  if st.conversationGoal = ConversationGoal.LeadCapture then
    false
  else
    let hasContact := (lookupSlot st.slots "customer_name").isSome
      && (lookupSlot st.slots "phone_number").isSome
    let hasPartialContact := (lookupSlot st.slots "customer_name").isSome
      || (lookupSlot st.slots "phone_number").isSome
    if hasContact then
      true
    else if hasPartialContact && decide (st.goalCompletion ≥ 3/4) then
      true
    else
      false

/-- Mirror of set_goal (dst/slots.rs lines 594-598). -/
def setGoal (st : GoldLoanDialogueState) (goal : ConversationGoal) (turn : Nat) :
    GoldLoanDialogueState :=
  { st with conversationGoal := goal, goalConfirmed := true, goalSetTurn := turn }

end GoldLoanDialogueState

/-! ## C1: should_auto_capture_lead -/

/-- Concrete state used against C1: goal EligibilityCheck, gold_weight and
customer_name filled, phone_number unset. -/
def c1State : GoldLoanDialogueState :=
  ((GoldLoanDialogueState.new.setGoal ConversationGoal.EligibilityCheck 0).setSlotValue
      "gold_weight" "50" (9/10)).setSlotValue "customer_name" "Rahul" (9/10)

/-- C1 counterexample: the claim says should_auto_capture_lead is true only
when both customer_name and phone_number are set (never when phone_number is
unset).  In the state c1State the goal is eligibility_check, customer_name is
set, phone_number is NOT set, the single required slot gold_weight is filled
(goal completion 1 ≥ 0.75), and should_auto_capture_lead returns true. -/
theorem c1_counterexample :
    c1State.shouldAutoCaptureLead = true ∧
    c1State.getSlotValue "phone_number" = none ∧
    ¬ (c1State.conversationGoal ≠ ConversationGoal.LeadCapture ∧
       (c1State.getSlotValue "customer_name").isSome = true ∧
       (c1State.getSlotValue "phone_number").isSome = true) := by
  refine ⟨by decide, by decide, ?_⟩
  intro h
  exact absurd h.2.2 (by decide)

/-- C1 amended: should_auto_capture_lead returns true iff the goal is not
lead_capture and either both customer_name and phone_number are filled, or at
least one of them is filled and the goal completion fraction is ≥ 0.75. -/
theorem c1_auto_capture_lead_characterisation (st : GoldLoanDialogueState) :
    st.shouldAutoCaptureLead = true ↔
      (st.conversationGoal ≠ ConversationGoal.LeadCapture ∧
        (((st.getSlotValue "customer_name").isSome = true ∧
          (st.getSlotValue "phone_number").isSome = true) ∨
         (((st.getSlotValue "customer_name").isSome = true ∨
           (st.getSlotValue "phone_number").isSome = true) ∧
          st.goalCompletion ≥ 3/4))) := by
  unfold GoldLoanDialogueState.shouldAutoCaptureLead GoldLoanDialogueState.getSlotValue
  by_cases hg : st.conversationGoal = ConversationGoal.LeadCapture
  · simp [hg]
  · simp only [if_neg hg]
    by_cases hn : (lookupSlot st.slots "customer_name").isSome
    · by_cases hp : (lookupSlot st.slots "phone_number").isSome
      · simp [hn, hp, hg]
      · by_cases hc : st.goalCompletion ≥ 3/4
        · simp [hn, hp, hg, hc]
        · simp [hn, hp, hg, hc]
    · by_cases hp : (lookupSlot st.slots "phone_number").isSome
      · by_cases hc : st.goalCompletion ≥ 3/4
        · simp [hn, hp, hg, hc]
        · simp [hn, hp, hg, hc]
      · simp [hn, hp, hg]

/-! ## Dialogue state tracker (dst/mod.rs) -/

/-- Source of a state change (dst/mod.rs lines 263-273). -/
inductive ChangeSource where
  | UserUtterance
  | Correction
  | SystemConfirmation
  | External
  deriving Repr, DecidableEq

/-- Record of a state change (dst/mod.rs lines 244-260).  The chrono timestamp
is dropped: nothing in the embedded code reads it. -/
structure StateChange where
  slotName : String
  oldValue : Option String
  newValue : Option String
  confidence : Rat
  source : ChangeSource
  turnIndex : Nat
  deriving Repr, DecidableEq

/-- Extracted slot as produced by the intent detector
(text_processing intent::Slot).  The redundant name field (the map key) and
the never-read slot_type are dropped. -/
structure ExtractedSlot where
  value : Option String
  confidence : Rat
  deriving Repr, DecidableEq

/-- Detected intent (text_processing intent::DetectedIntent).  The Rust
HashMap of slots is linearised into an association list; its iteration order
is the list order (Rust's HashMap iteration order is unspecified). -/
structure DetectedIntent where
  intent : String
  confidence : Rat
  slots : List (String × ExtractedSlot)
  deriving Repr, DecidableEq

/-- DST configuration (dst/mod.rs lines 220-241). -/
structure DstConfig where
  minSlotConfidence : Rat := 1/2
  autoConfirmConfidence : Rat := 9/10
  enableCorrections : Bool := true
  correctionLookback : Nat := 3
  deriving Repr, DecidableEq

/-- Dialogue state tracker (dst/mod.rs lines 207-217).  domain_view is None
(as constructed by DialogueStateTracker::new / with_config), so the embedded
reads below take the documented fallback paths. -/
structure DialogueStateTracker where
  state : GoldLoanDialogueState := GoldLoanDialogueState.new
  history : List StateChange := []
  config : DstConfig := {}
  deriving Repr, DecidableEq

/-- Digit run folded into a number; none on a non-digit. -/
def digitsAcc : List Char → Nat → Option Nat
  | [], acc => some acc
  | c :: rest, acc =>
    if '0' ≤ c ∧ c ≤ '9' then digitsAcc rest (10 * acc + (c.toNat - '0'.toNat)) else none

/-- Nonempty digit run as a number. -/
def digitsToNat : List Char → Option Nat
  | [] => none
  | cs => digitsAcc cs 0

/-- Unsigned decimal: digits with an optional single fraction point. -/
def parseDecCore (cs : List Char) : Option Rat :=
  let intPart := cs.takeWhile (fun c => c ≠ '.')
  match cs.dropWhile (fun c => c ≠ '.') with
  | [] => (digitsToNat intPart).map (fun n => (n : Rat))
  | _ :: frac =>
    if frac.contains '.' then none
    else
      match digitsToNat intPart, digitsToNat frac with
      | some a, some b =>
        some ((a : Rat) + (b : Rat) / (((10 : Nat) ^ frac.length : Nat) : Rat))
      | _, _ => none

/-- Decimal fragment parser mirroring str::parse::<f64> on the shapes the
dst slot values take (optional minus sign, digits, optional fraction).  The
exotic forms f64 parsing also accepts (exponents, infinities) never arise in
the embedded code paths and no theorem below depends on them. -/
def parseDec (s : String) : Option Rat :=
  match s.toList with
  | '-' :: rest => (parseDecCore rest).map (fun q => -q)
  | cs => parseDecCore cs

/-- Mirror of gold_weight_grams (dst/slots.rs lines 432-436): the stored
string parsed as a number. -/
def GoldLoanDialogueState.goldWeightGrams (st : GoldLoanDialogueState) : Option Rat :=
  (st.getSlotValue "gold_weight").bind parseDec

namespace DialogueStateTracker

/-- Mirror of DialogueStateTracker::new with default config. -/
def new : DialogueStateTracker := {}

/-- Mirror of update_slot (dst/mod.rs lines 372-415): skip when the value is
unchanged, else append a StateChange, write the slot, and mark it pending or
confirmed by the auto-confirm threshold. -/
def updateSlot (T : DialogueStateTracker) (slotName value : String) (confidence : Rat)
    (source : ChangeSource) (turnIndex : Nat) : DialogueStateTracker :=
  let oldValue := T.state.getSlotValue slotName
  if oldValue = some value then T
  else
    let st := T.state.setSlotValue slotName value confidence
    let st :=
      if confidence < T.config.autoConfirmConfidence then st.markPending slotName
      else st.markConfirmed slotName
    { T with
      state := st
      history := T.history ++
        [{ slotName := slotName, oldValue := oldValue, newValue := some value,
           confidence := confidence, source := source, turnIndex := turnIndex }] }

/-- Mirror of confirm_slot (dst/mod.rs lines 418-430): mark confirmed, then
append a SystemConfirmation entry whose old and new value are both read from
the already-updated state. -/
def confirmSlot (T : DialogueStateTracker) (slotName : String) : DialogueStateTracker :=
  let st := T.state.markConfirmed slotName
  { T with
    state := st
    history := T.history ++
      [{ slotName := slotName, oldValue := st.getSlotValue slotName,
         newValue := st.getSlotValue slotName, confidence := 1,
         source := ChangeSource.SystemConfirmation, turnIndex := T.history.length }] }

/-- Mirror of clear_slot (dst/mod.rs lines 433-446). -/
def clearSlot (T : DialogueStateTracker) (slotName : String) : DialogueStateTracker :=
  let oldValue := T.state.getSlotValue slotName
  { T with
    state := T.state.clearSlot slotName
    history := T.history ++
      [{ slotName := slotName, oldValue := oldValue, newValue := none, confidence := 1,
         source := ChangeSource.UserUtterance, turnIndex := T.history.length }] }

/-- One iteration of the loop of detect_and_apply_corrections
(dst/mod.rs lines 455-486): look at the last correction_lookback history
entries, keep those for this slot, and if the most recent one carries a
different value apply the new value as a Correction with confidence
max(c, 0.9). -/
def correctionStep (turnIndex : Nat) (T : DialogueStateTracker)
    (p : String × ExtractedSlot) : DialogueStateTracker :=
  match p.2.value with
  | none => T
  | some newValue =>
    let recentChanges := (T.history.reverse.take T.config.correctionLookback).filter
      (fun c => c.slotName = p.1)
    match recentChanges.head? with
    | none => T
    | some recent =>
      if recent.newValue ≠ some newValue then
        T.updateSlot p.1 newValue (max p.2.confidence (9/10))
          ChangeSource.Correction turnIndex
      else T

/-- Mirror of detect_and_apply_corrections (dst/mod.rs lines 449-487). -/
def detectAndApplyCorrections (T : DialogueStateTracker)
    (newSlots : List (String × ExtractedSlot)) (turnIndex : Nat) : DialogueStateTracker :=
  newSlots.foldl (correctionStep turnIndex) T

/-- One iteration of the slot-update loop of update (dst/mod.rs lines
356-362): apply slots whose confidence meets min_slot_confidence. -/
def slotUpdateStep (turnIndex : Nat) (T : DialogueStateTracker)
    (p : String × ExtractedSlot) : DialogueStateTracker :=
  if p.2.confidence ≥ T.config.minSlotConfidence then
    match p.2.value with
    | some v => T.updateSlot p.1 v p.2.confidence ChangeSource.UserUtterance turnIndex
    | none => T
  else T

/-- One iteration of check_auto_confirmations (dst/mod.rs lines 493-500). -/
def autoConfirmStep (T : DialogueStateTracker) (n : String) : DialogueStateTracker :=
  match T.state.getSlotWithConfidence n with
  | some sv =>
    if sv.confidence ≥ T.config.autoConfirmConfidence then
      { T with state := T.state.markConfirmed n }
    else T
  | none => T

/-- Mirror of check_auto_confirmations (dst/mod.rs lines 490-501): iterate the
cloned pending list and confirm the slots whose confidence meets the
threshold. -/
def checkAutoConfirmations (T : DialogueStateTracker) : DialogueStateTracker :=
  T.state.pendingSlots.foldl autoConfirmStep T

/-- Mirror of update (dst/mod.rs lines 347-369): corrections, slot updates
above the confidence threshold, intent promotion, auto-confirmation. -/
def update (T : DialogueStateTracker) (intent : DetectedIntent) : DialogueStateTracker :=
  let turnIndex := T.history.length
  let T := if T.config.enableCorrections then
      T.detectAndApplyCorrections intent.slots turnIndex
    else T
  let T := intent.slots.foldl (slotUpdateStep turnIndex) T
  let T := { T with state := T.state.updateIntent intent.intent intent.confidence }
  T.checkAutoConfirmations

/-- Mirror of is_intent_complete (dst/mod.rs lines 513-537) with
domain_view = None: the hardcoded fallback mapping. -/
def isIntentComplete (T : DialogueStateTracker) (intent : String) : Bool :=
  if intent = "eligibility_check" then T.state.goldWeightGrams.isSome
  else if intent = "switch_lender" then (T.state.getSlotValue "current_lender").isSome
  else if intent = "schedule_visit" then (T.state.getSlotValue "location").isSome
  else if intent = "send_sms" then (T.state.getSlotValue "phone_number").isSome
  else true

end DialogueStateTracker

/-! ## Association-list and slot-store lemmas -/

theorem lookupSlot_cons (p : String × SlotValue) (rest : List (String × SlotValue))
    (m : String) :
    lookupSlot (p :: rest) m = if p.1 = m then some p.2 else lookupSlot rest m := rfl

theorem lookupSlot_storeSlot_self (l : List (String × SlotValue)) (n : String) (v : SlotValue) :
    lookupSlot (storeSlot l n v) n = some v := by
  simp [storeSlot, lookupSlot_cons]

theorem lookupSlot_dropSlot (l : List (String × SlotValue)) (n m : String) (h : m ≠ n) :
    lookupSlot (dropSlot l n) m = lookupSlot l m := by
  induction l with
  | nil => rfl
  | cons p rest ih =>
    simp only [dropSlot] at ih ⊢
    rw [List.filter_cons]
    by_cases hp : p.1 = n
    · have hd : decide (p.1 ≠ n) = false := by simp [hp]
      have hpm : ¬ p.1 = m := fun hm => h (by rw [← hm, hp])
      rw [hd, if_neg (by simp), lookupSlot_cons, if_neg hpm]
      exact ih
    · have hd : decide (p.1 ≠ n) = true := by simp [hp]
      rw [hd, if_pos rfl, lookupSlot_cons, lookupSlot_cons]
      by_cases hm : p.1 = m
      · rw [if_pos hm, if_pos hm]
      · rw [if_neg hm, if_neg hm]
        exact ih

theorem lookupSlot_storeSlot_ne (l : List (String × SlotValue)) (n m : String)
    (v : SlotValue) (h : m ≠ n) :
    lookupSlot (storeSlot l n v) m = lookupSlot l m := by
  have hnm : n ≠ m := fun hh => h hh.symm
  simp only [storeSlot, lookupSlot_cons, if_neg hnm]
  exact lookupSlot_dropSlot l n m h

theorem lookupSlot_confirmSlotAt (l : List (String × SlotValue)) (n m : String) :
    lookupSlot (confirmSlotAt l n) m =
      if n = m then (lookupSlot l m).map SlotValue.confirm else lookupSlot l m := by
  induction l with
  | nil => by_cases h : n = m <;> simp [confirmSlotAt, lookupSlot, h]
  | cons p rest ih =>
    simp only [confirmSlotAt, List.map_cons] at ih ⊢
    by_cases hm : p.1 = m
    · by_cases hn : p.1 = n
      · have : n = m := by rw [← hn, hm]
        simp [lookupSlot_cons, hm, hn, this]
      · have h1 : ¬ n = m := fun h => hn (by rw [hm, h])
        have h2 : ¬ m = n := fun h => h1 h.symm
        simp [lookupSlot_cons, hm, hn, h1, h2]
    · simp [lookupSlot_cons, hm, ih]

theorem lookupSlot_isSome_iff_mem (l : List (String × SlotValue)) (n : String) :
    (lookupSlot l n).isSome = true ↔ n ∈ l.map Prod.fst := by
  induction l with
  | nil => simp [lookupSlot]
  | cons p rest ih =>
    rw [lookupSlot_cons]
    by_cases hp : p.1 = n
    · simp [hp, List.map_cons]
    · have hnp : ¬ n = p.1 := fun h => hp h.symm
      simp [hp, List.map_cons, hnp, ih]

/-- Membership in filled_slots is exactly presence in the slot store. -/
theorem mem_filledSlots_iff (st : GoldLoanDialogueState) (n : String) :
    n ∈ st.filledSlots ↔ (lookupSlot st.slots n).isSome = true := by
  unfold GoldLoanDialogueState.filledSlots
  by_cases hk : n ∈ knownSlotNames
  · simp [List.mem_append, List.mem_filter, hk, lookupSlot_isSome_iff_mem]
  · simp [List.mem_append, List.mem_filter, hk, lookupSlot_isSome_iff_mem]

theorem contains_filledSlots (st : GoldLoanDialogueState) (n : String) :
    st.filledSlots.contains n = (lookupSlot st.slots n).isSome := by
  by_cases hm : n ∈ st.filledSlots
  · have h1 : st.filledSlots.contains n = true := List.elem_iff.mpr hm
    rw [h1, (mem_filledSlots_iff st n).mp hm]
  · have h1 : st.filledSlots.contains n = false := by
      rcases hc : st.filledSlots.contains n with _ | _
      · rfl
      · exact absurd (List.elem_iff.mp hc) hm
    have h2 : (lookupSlot st.slots n).isSome = false := by
      rcases hs : (lookupSlot st.slots n).isSome with _ | _
      · rfl
      · exact absurd ((mem_filledSlots_iff st n).mpr hs) hm
    rw [h1, h2]

/-! ## C4: completion versus next_best_action -/

/-- Concrete tracker used against C4: goal balance_transfer (the goal of
intent switch_lender) with only current_lender filled. -/
def c4TrackerGoal : DialogueStateTracker :=
  let T := DialogueStateTracker.new.updateSlot "current_lender" "muthoot" (9/10)
      ChangeSource.UserUtterance 0
  { T with state := T.state.setGoal ConversationGoal.BalanceTransfer 0 }

/-- C4 counterexample: with only current_lender filled and the conversation
goal balance_transfer (the goal of intent switch_lender, required slots
current_lender and loan_amount), is_intent_complete("switch_lender") is true,
yet next_best_action is AskFor("loan_amount"), a required slot of that goal. -/
theorem c4_counterexample :
    c4TrackerGoal.isIntentComplete "switch_lender" = true ∧
    c4TrackerGoal.state.conversationGoal =
      ConversationGoal.fromIntent "switch_lender" ∧
    c4TrackerGoal.state.getNextAction = NextBestAction.AskFor "loan_amount" ∧
    "loan_amount" ∈ (ConversationGoal.fromIntent "switch_lender").requiredSlots := by
  refine ⟨by decide, by decide, by decide, by decide⟩

/-- C4 amended: when every required slot of the state's current goal is
filled, next_best_action never returns AskFor(x) for a required slot x of
that goal. -/
theorem c4_no_ask_when_required_filled (st : GoldLoanDialogueState)
    (h : ∀ s ∈ st.conversationGoal.requiredSlots, (lookupSlot st.slots s).isSome = true) :
    ∀ x ∈ st.conversationGoal.requiredSlots, st.getNextAction ≠ NextBestAction.AskFor x := by
  intro x hx
  unfold GoldLoanDialogueState.getNextAction
  cases hg : st.conversationGoal with
  | Exploration => rw [hg] at hx; simp [ConversationGoal.requiredSlots] at hx
  | BalanceTransfer =>
    rw [hg] at hx h
    have h1 := contains_filledSlots st "current_lender"
    have h2 := contains_filledSlots st "loan_amount"
    rw [h "current_lender" (by simp [ConversationGoal.requiredSlots])] at h1
    rw [h "loan_amount" (by simp [ConversationGoal.requiredSlots])] at h2
    simp [ConversationGoal.requiredSlots] at hx
    simp only [ConversationGoal.nextAction, h1, h2]
    rcases hx with hx | hx <;> subst hx <;>
      cases hr : st.filledSlots.contains "current_interest_rate" <;> simp
  | NewLoan =>
    rw [hg] at hx h
    have h1 := contains_filledSlots st "gold_weight"
    rw [h "gold_weight" (by simp [ConversationGoal.requiredSlots])] at h1
    simp only [ConversationGoal.nextAction, h1]
    simp
  | EligibilityCheck =>
    rw [hg] at hx h
    have h1 := contains_filledSlots st "gold_weight"
    rw [h "gold_weight" (by simp [ConversationGoal.requiredSlots])] at h1
    simp only [ConversationGoal.nextAction, h1]
    simp
  | BranchVisit =>
    rw [hg] at hx h
    have h1 := contains_filledSlots st "location"
    rw [h "location" (by simp [ConversationGoal.requiredSlots])] at h1
    simp only [ConversationGoal.nextAction, h1]
    simp
  | LeadCapture =>
    rw [hg] at hx h
    have h1 := contains_filledSlots st "customer_name"
    have h2 := contains_filledSlots st "phone_number"
    rw [h "customer_name" (by simp [ConversationGoal.requiredSlots])] at h1
    rw [h "phone_number" (by simp [ConversationGoal.requiredSlots])] at h2
    simp only [ConversationGoal.nextAction, h1, h2]
    simp

/-- State used by the C4 amended witness: balance_transfer goal with
current_lender, loan_amount and current_interest_rate filled. -/
def c4WitnessState : GoldLoanDialogueState :=
  (((GoldLoanDialogueState.new.setGoal ConversationGoal.BalanceTransfer 0).setSlotValue
      "current_lender" "muthoot" (9/10)).setSlotValue
      "loan_amount" "1000000" (9/10)).setSlotValue
      "current_interest_rate" "18" (9/10)

/-- C4 amended witness at a concrete input: with both required slots of
balance_transfer filled, the next action is not AskFor("loan_amount"). -/
theorem c4_no_ask_when_required_filled_witness :
    c4WitnessState.getNextAction ≠ NextBestAction.AskFor "loan_amount" :=
  c4_no_ask_when_required_filled c4WitnessState (by decide) "loan_amount" (by decide)

/-! ## C5: correction semantics -/

theorem getSlotValue_setSlotValue_self (st : GoldLoanDialogueState) (n v : String) (c : Rat) :
    (st.setSlotValue n v c).getSlotValue n = some v := by
  simp [GoldLoanDialogueState.setSlotValue, GoldLoanDialogueState.getSlotValue,
    lookupSlot_storeSlot_self, SlotValue.mk']

theorem getSlotValue_markPending (st : GoldLoanDialogueState) (n m : String) :
    (st.markPending n).getSlotValue m = st.getSlotValue m := rfl

theorem getSlotValue_markConfirmed (st : GoldLoanDialogueState) (n m : String) :
    (st.markConfirmed n).getSlotValue m = st.getSlotValue m := by
  unfold GoldLoanDialogueState.markConfirmed GoldLoanDialogueState.getSlotValue
  simp only [lookupSlot_confirmSlotAt]
  by_cases h : n = m
  · rw [if_pos h]
    cases lookupSlot st.slots m <;> rfl
  · rw [if_neg h]

theorem slots_updateIntent (st : GoldLoanDialogueState) (i : String) (c : Rat) :
    (st.updateIntent i c).slots = st.slots := by
  unfold GoldLoanDialogueState.updateIntent
  split
  · rfl
  · rfl

theorem getSlotValue_updateIntent (st : GoldLoanDialogueState) (i : String) (c : Rat)
    (m : String) :
    (st.updateIntent i c).getSlotValue m = st.getSlotValue m := by
  unfold GoldLoanDialogueState.getSlotValue
  rw [slots_updateIntent]

/-- update_slot is the identity when the stored value already equals the new
one (the skip at dst/mod.rs lines 382-385). -/
theorem updateSlot_of_eq (T : DialogueStateTracker) (n v : String) (c : Rat)
    (src : ChangeSource) (ti : Nat) (h : T.state.getSlotValue n = some v) :
    T.updateSlot n v c src ti = T := by
  unfold DialogueStateTracker.updateSlot
  rw [h]
  simp

/-- When the stored value differs, update_slot appends exactly one history
entry and stores the new value. -/
theorem updateSlot_of_ne (T : DialogueStateTracker) (n v : String) (c : Rat)
    (src : ChangeSource) (ti : Nat) (h : T.state.getSlotValue n ≠ some v) :
    (T.updateSlot n v c src ti).history =
      T.history ++ [{ slotName := n, oldValue := T.state.getSlotValue n, newValue := some v,
                      confidence := c, source := src, turnIndex := ti }] ∧
    (T.updateSlot n v c src ti).state.getSlotValue n = some v := by
  unfold DialogueStateTracker.updateSlot
  rw [if_neg h]
  refine ⟨rfl, ?_⟩
  by_cases hc : c < T.config.autoConfirmConfidence
  · simp only [if_pos hc, getSlotValue_markPending, getSlotValue_setSlotValue_self]
  · simp only [if_neg hc, getSlotValue_markConfirmed, getSlotValue_setSlotValue_self]

/-- check_auto_confirmations never touches the history or the stored slot
values (it only moves names between the pending and confirmed sets and sets
confirmed confidences to 1). -/
theorem autoConfirm_foldl_preserves (l : List String) (T : DialogueStateTracker) :
    (l.foldl DialogueStateTracker.autoConfirmStep T).history = T.history ∧
    ∀ m, (l.foldl DialogueStateTracker.autoConfirmStep T).state.getSlotValue m = T.state.getSlotValue m := by
  induction l generalizing T with
  | nil => exact ⟨rfl, fun _ => rfl⟩
  | cons n rest ih =>
    have hstep : (DialogueStateTracker.autoConfirmStep T n).history = T.history ∧
        ∀ m, (DialogueStateTracker.autoConfirmStep T n).state.getSlotValue m = T.state.getSlotValue m := by
      unfold DialogueStateTracker.autoConfirmStep
      cases T.state.getSlotWithConfidence n with
      | none => exact ⟨rfl, fun _ => rfl⟩
      | some sv =>
        dsimp only
        by_cases hc : sv.confidence ≥ T.config.autoConfirmConfidence
        · rw [if_pos hc]
          exact ⟨rfl, fun m => getSlotValue_markConfirmed T.state n m⟩
        · rw [if_neg hc]
          exact ⟨rfl, fun _ => rfl⟩
    have := ih (DialogueStateTracker.autoConfirmStep T n)
    exact ⟨by rw [List.foldl_cons, this.1, hstep.1],
           fun m => by rw [List.foldl_cons, this.2 m, hstep.2 m]⟩

/-- First update used against C5: four slots extracted in one utterance
(gold_weight first in the HashMap iteration order realised by the list). -/
def c5FirstIntent : DetectedIntent :=
  { intent := "new_loan", confidence := 9/10,
    slots := [("gold_weight", { value := some "50", confidence := 9/10 }),
              ("loan_purpose", { value := some "business", confidence := 9/10 }),
              ("gold_item_type", { value := some "jewelry", confidence := 9/10 }),
              ("gold_purity", { value := some "22", confidence := 9/10 })] }

/-- Second, immediately following update carrying a contradictory
gold_weight. -/
def c5SecondIntent : DetectedIntent :=
  { intent := "new_loan", confidence := 9/10,
    slots := [("gold_weight", { value := some "40", confidence := 9/10 })] }

/-- Tracker after the first C5 update. -/
def c5T1 : DialogueStateTracker := DialogueStateTracker.new.update c5FirstIntent

/-- Tracker after the second C5 update. -/
def c5T2 : DialogueStateTracker := c5T1.update c5SecondIntent

/-- C5 counterexample: gold_weight is set to 50 in one update (which also
carries three other slots, recorded after it) and the next update carries
gold_weight = 40.  The state does take the new value, but the history gains a
UserUtterance entry and contains NO Correction-sourced entry at all - the
correction scan looks at the last correction_lookback = 3 history entries of
the whole history, and the gold_weight entry is four entries back.  The claim
demands exactly one Correction-sourced StateChange for that update. -/
theorem c5_counterexample :
    c5T1.state.getSlotValue "gold_weight" = some "50" ∧
    c5T1.history.length = 4 ∧
    c5T2.state.getSlotValue "gold_weight" = some "40" ∧
    (c5T2.history.filter (fun c => c.source = ChangeSource.Correction)).length = 0 ∧
    c5T2.history.length = 5 := by
  refine ⟨by decide, by decide, by decide, by decide, by decide⟩

/-- C5 amended: if the most recent history entry for slot s among the last
correction_lookback entries records value v1, the state stores v1 for s, and
the next update's intent carries s with a different value v2, then afterwards
the state stores v2 and the history is extended by exactly one entry: a
Correction-sourced change from v1 to v2 whose confidence is max(c2, 0.9) ≥
0.9; all earlier entries (in particular the one recording v1) remain. -/
theorem c5_correction_applied (T : DialogueStateTracker) (iname : String) (iconf : Rat)
    (s v1 v2 : String) (c2 : Rat) (r : StateChange)
    (hen : T.config.enableCorrections = true)
    (hrec : ((T.history.reverse.take T.config.correctionLookback).filter
        (fun c => c.slotName = s)).head? = some r)
    (hr1 : r.newValue = some v1)
    (hstate : T.state.getSlotValue s = some v1)
    (hne : v1 ≠ v2) :
    (T.update { intent := iname, confidence := iconf,
                slots := [(s, { value := some v2, confidence := c2 })] }).state.getSlotValue s
        = some v2 ∧
    (T.update { intent := iname, confidence := iconf,
                slots := [(s, { value := some v2, confidence := c2 })] }).history =
      T.history ++ [{ slotName := s, oldValue := some v1, newValue := some v2,
                      confidence := max c2 (9/10), source := ChangeSource.Correction,
                      turnIndex := T.history.length }] ∧
    (9/10 : Rat) ≤ max c2 (9/10) := by
  have hne' : T.state.getSlotValue s ≠ some v2 := by
    rw [hstate]
    intro h
    exact hne (Option.some.inj h)
  -- the correction phase applies updateSlot with the boosted confidence
  have hstep : DialogueStateTracker.correctionStep T.history.length T (s, { value := some v2, confidence := c2 }) =
      T.updateSlot s v2 (max c2 (9/10)) ChangeSource.Correction T.history.length := by
    unfold DialogueStateTracker.correctionStep
    simp only [hrec]
    have : r.newValue ≠ some v2 := by
      rw [hr1]
      intro h
      exact hne (Option.some.inj h)
    rw [if_pos this]
  set T1 := T.updateSlot s v2 (max c2 (9/10)) ChangeSource.Correction T.history.length with hT1
  have h1 := updateSlot_of_ne T s v2 (max c2 (9/10)) ChangeSource.Correction
    T.history.length hne'
  -- the plain slot-update loop skips: the value is already v2
  have hloop : DialogueStateTracker.slotUpdateStep T.history.length T1 (s, { value := some v2, confidence := c2 })
      = T1 := by
    unfold DialogueStateTracker.slotUpdateStep
    by_cases hc : c2 ≥ T1.config.minSlotConfidence
    · rw [if_pos hc]
      exact updateSlot_of_eq T1 s v2 c2 ChangeSource.UserUtterance T.history.length h1.2
    · rw [if_neg hc]
  have hupd : T.update ⟨iname, iconf, [(s, ⟨some v2, c2⟩)]⟩ =
      DialogueStateTracker.checkAutoConfirmations
        { T1 with state := T1.state.updateIntent iname iconf } := by
    simp only [DialogueStateTracker.update, DialogueStateTracker.detectAndApplyCorrections,
      hen, if_true, List.foldl_cons, List.foldl_nil, hstep, ← hT1, hloop]
  have hauto := autoConfirm_foldl_preserves
    ({ T1 with state := T1.state.updateIntent iname iconf }).state.pendingSlots
    { T1 with state := T1.state.updateIntent iname iconf }
  refine ⟨?_, ?_, le_max_right _ _⟩
  · rw [hupd, DialogueStateTracker.checkAutoConfirmations, hauto.2 s]
    show (T1.state.updateIntent iname iconf).getSlotValue s = some v2
    rw [getSlotValue_updateIntent]
    exact h1.2
  · rw [hupd, DialogueStateTracker.checkAutoConfirmations, hauto.1]
    show T1.history = _
    rw [hT1, h1.1, hstate]

/-- Tracker that saw a single-slot update gold_weight = 50, used by the C5
witness. -/
def c5WitnessT0 : DialogueStateTracker :=
  DialogueStateTracker.new.update
    { intent := "new_loan", confidence := 9/10,
      slots := [("gold_weight", { value := some "50", confidence := 9/10 })] }

/-- Second intent of the C5 witness: gold_weight = 40 at confidence 0.7. -/
def c5WitnessIntent : DetectedIntent :=
  { intent := "new_loan", confidence := 9/10,
    slots := [("gold_weight", { value := some "40", confidence := 7/10 })] }

/-- C5 witness: a fresh tracker that saw gold_weight = 50 receives
gold_weight = 40 and records exactly one boosted Correction entry. -/
theorem c5_correction_applied_witness :
    (c5WitnessT0.update c5WitnessIntent).state.getSlotValue "gold_weight" = some "40" ∧
    (c5WitnessT0.update c5WitnessIntent).history = c5WitnessT0.history ++
      [{ slotName := "gold_weight", oldValue := some "50", newValue := some "40",
         confidence := max (7/10) (9/10), source := ChangeSource.Correction,
         turnIndex := c5WitnessT0.history.length }] := by
  have h := c5_correction_applied c5WitnessT0 "new_loan" (9/10) "gold_weight" "50" "40" (7/10)
    { slotName := "gold_weight", oldValue := none, newValue := some "50",
      confidence := 9/10, source := ChangeSource.UserUtterance, turnIndex := 0 }
    (by decide) (by decide) (by decide) (by decide) (by decide)
  exact ⟨h.1, h.2.1⟩

/-! ## C6: dialogue-state invariants -/

theorem mem_insertName (l : List String) (n m : String) :
    m ∈ insertName l n ↔ m = n ∨ m ∈ l := by
  unfold insertName
  by_cases h : n ∈ l
  · rw [if_pos h]
    constructor
    · exact Or.inr
    · rintro (rfl | hm)
      · exact h
      · exact hm
  · rw [if_neg h]
    simp

theorem mem_removeName (l : List String) (n m : String) :
    m ∈ removeName l n ↔ m ∈ l ∧ m ≠ n := by
  simp [removeName, List.mem_filter]

theorem lookupSlot_dropSlot_self (l : List (String × SlotValue)) (n : String) :
    lookupSlot (dropSlot l n) n = none := by
  induction l with
  | nil => rfl
  | cons p rest ih =>
    simp only [dropSlot, List.filter_cons] at ih ⊢
    by_cases hp : p.1 = n
    · have hd : decide (p.1 ≠ n) = false := by simp [hp]
      rw [hd, if_neg (by simp)]
      exact ih
    · have hd : decide (p.1 ≠ n) = true := by simp [hp]
      rw [hd, if_pos rfl, lookupSlot_cons, if_neg hp]
      exact ih

/-- Invariants of the dialogue state, as stated in the specification:
pending and confirmed are disjoint, every stored confidence lies in [0,1],
and a filled slot whose name is confirmed has confidence exactly 1 and is not
pending. -/
def Inv (st : GoldLoanDialogueState) : Prop :=
  (∀ n, n ∈ st.pendingSlots → n ∉ st.confirmedSlots) ∧
  (∀ n sv, lookupSlot st.slots n = some sv → 0 ≤ sv.confidence ∧ sv.confidence ≤ 1) ∧
  (∀ n sv, n ∈ st.confirmedSlots → lookupSlot st.slots n = some sv →
      sv.confidence = 1 ∧ n ∉ st.pendingSlots)

theorem inv_new : Inv GoldLoanDialogueState.new := by
  refine ⟨fun n hn => ?_, fun n sv hs => ?_, fun n sv hn _ => ?_⟩
  · exact absurd hn (List.not_mem_nil n)
  · exact absurd hs (by simp [GoldLoanDialogueState.new, lookupSlot])
  · exact absurd hn (List.not_mem_nil n)

theorem inv_markPending (st : GoldLoanDialogueState) (n : String) (h : Inv st) :
    Inv (st.markPending n) := by
  obtain ⟨h1, h2, h3⟩ := h
  refine ⟨fun m hm => ?_, h2, fun m sv hm hs => ?_⟩
  · rw [GoldLoanDialogueState.markPending] at hm ⊢
    simp only [mem_insertName] at hm
    simp only [mem_removeName, not_and, ne_eq, not_not]
    rcases hm with rfl | hm
    · intro _; rfl
    · intro hc; exact absurd hc (h1 m hm)
  · rw [GoldLoanDialogueState.markPending] at hm ⊢
    simp only [mem_removeName] at hm
    have := h3 m sv hm.1 hs
    refine ⟨this.1, ?_⟩
    simp only [mem_insertName, not_or]
    exact ⟨hm.2, this.2⟩

theorem inv_markConfirmed (st : GoldLoanDialogueState) (n : String) (h : Inv st) :
    Inv (st.markConfirmed n) := by
  obtain ⟨h1, h2, h3⟩ := h
  refine ⟨fun m hm => ?_, fun m sv hs => ?_, fun m sv hm hs => ?_⟩
  · rw [GoldLoanDialogueState.markConfirmed] at hm ⊢
    simp only [mem_removeName] at hm
    simp only [mem_insertName, not_or]
    exact ⟨hm.2, h1 m hm.1⟩
  · rw [GoldLoanDialogueState.markConfirmed, lookupSlot_confirmSlotAt] at hs
    by_cases hnm : n = m
    · rw [if_pos hnm] at hs
      rcases ho : lookupSlot st.slots m with _ | sv0
      · rw [ho] at hs; exact absurd hs (by simp)
      · rw [ho] at hs
        simp only [Option.map_some'] at hs
        rw [← Option.some.inj hs]
        exact ⟨by norm_num [SlotValue.confirm], by norm_num [SlotValue.confirm]⟩
    · rw [if_neg hnm] at hs
      exact h2 m sv hs
  · rw [GoldLoanDialogueState.markConfirmed] at hm hs ⊢
    simp only [mem_insertName] at hm
    rw [lookupSlot_confirmSlotAt] at hs
    rcases hm with rfl | hm
    · rw [if_pos rfl] at hs
      rcases ho : lookupSlot st.slots m with _ | sv0
      · rw [ho] at hs; exact absurd hs (by simp)
      · rw [ho] at hs
        simp only [Option.map_some'] at hs
        refine ⟨by rw [← Option.some.inj hs]; rfl, ?_⟩
        simp [mem_removeName]
    · by_cases hnm : n = m
      · rw [if_pos hnm] at hs
        rcases ho : lookupSlot st.slots m with _ | sv0
        · rw [ho] at hs; exact absurd hs (by simp)
        · rw [ho] at hs
          simp only [Option.map_some'] at hs
          refine ⟨by rw [← Option.some.inj hs]; rfl, ?_⟩
          simp [mem_removeName, hnm]
      · rw [if_neg hnm] at hs
        have := h3 m sv hm hs
        refine ⟨this.1, ?_⟩
        simp only [mem_removeName, not_and]
        intro hp; exact absurd hp this.2

theorem inv_clearSlot (st : GoldLoanDialogueState) (n : String) (h : Inv st) :
    Inv (st.clearSlot n) := by
  obtain ⟨h1, h2, h3⟩ := h
  refine ⟨fun m hm => ?_, fun m sv hs => ?_, fun m sv hm hs => ?_⟩
  · rw [GoldLoanDialogueState.clearSlot] at hm ⊢
    simp only [mem_removeName] at hm
    simp only [mem_removeName, not_and]
    intro hc; exact absurd hc (h1 m hm.1)
  · rw [GoldLoanDialogueState.clearSlot] at hs
    by_cases hmn : m = n
    · rw [hmn, lookupSlot_dropSlot_self] at hs
      exact absurd hs (by simp)
    · rw [lookupSlot_dropSlot st.slots n m hmn] at hs
      exact h2 m sv hs
  · rw [GoldLoanDialogueState.clearSlot] at hm hs ⊢
    simp only [mem_removeName] at hm
    rw [lookupSlot_dropSlot st.slots n m hm.2] at hs
    have := h3 m sv hm.1 hs
    refine ⟨this.1, ?_⟩
    simp only [mem_removeName, not_and]
    intro hp; exact absurd hp this.2

/-- Writing a fresh value and immediately marking it pending or confirmed (the
tail of update_slot) preserves the invariants, given a confidence in [0,1]. -/
theorem inv_setThenMark (st : GoldLoanDialogueState) (n v : String) (c auto : Rat)
    (h : Inv st) (hc0 : 0 ≤ c) (hc1 : c ≤ 1) :
    Inv (if c < auto then (st.setSlotValue n v c).markPending n
         else (st.setSlotValue n v c).markConfirmed n) := by
  obtain ⟨h1, h2, h3⟩ := h
  by_cases hc : c < auto
  · rw [if_pos hc]
    refine ⟨fun m hm => ?_, fun m sv hs => ?_, fun m sv hm hs => ?_⟩
    · rw [GoldLoanDialogueState.markPending] at hm ⊢
      simp only [GoldLoanDialogueState.setSlotValue] at hm ⊢
      simp only [mem_insertName] at hm
      simp only [mem_removeName, not_and, ne_eq, not_not]
      rcases hm with rfl | hm
      · intro _; rfl
      · intro hc'; exact absurd hc' (h1 m hm)
    · simp only [GoldLoanDialogueState.markPending, GoldLoanDialogueState.setSlotValue] at hs
      by_cases hmn : m = n
      · rw [hmn, lookupSlot_storeSlot_self] at hs
        rw [← Option.some.inj hs]
        exact ⟨hc0, hc1⟩
      · rw [lookupSlot_storeSlot_ne st.slots n m _ hmn] at hs
        exact h2 m sv hs
    · simp only [GoldLoanDialogueState.markPending, GoldLoanDialogueState.setSlotValue]
        at hm hs ⊢
      simp only [mem_removeName] at hm
      rw [lookupSlot_storeSlot_ne st.slots n m _ hm.2] at hs
      have := h3 m sv hm.1 hs
      refine ⟨this.1, ?_⟩
      simp only [mem_insertName, not_or]
      exact ⟨hm.2, this.2⟩
  · rw [if_neg hc]
    refine ⟨fun m hm => ?_, fun m sv hs => ?_, fun m sv hm hs => ?_⟩
    · simp only [GoldLoanDialogueState.markConfirmed, GoldLoanDialogueState.setSlotValue]
        at hm ⊢
      simp only [mem_removeName] at hm
      simp only [mem_insertName, not_or]
      exact ⟨hm.2, h1 m hm.1⟩
    · simp only [GoldLoanDialogueState.markConfirmed, GoldLoanDialogueState.setSlotValue,
        lookupSlot_confirmSlotAt] at hs
      by_cases hnm : n = m
      · rw [if_pos hnm] at hs
        rcases ho : lookupSlot (storeSlot st.slots n (SlotValue.mk' v c 0)) m with _ | sv0
        · rw [ho] at hs; exact absurd hs (by simp)
        · rw [ho] at hs
          simp only [Option.map_some'] at hs
          rw [← Option.some.inj hs]
          exact ⟨by norm_num [SlotValue.confirm], by norm_num [SlotValue.confirm]⟩
      · rw [if_neg hnm] at hs
        rw [lookupSlot_storeSlot_ne st.slots n m _ (fun e => hnm e.symm)] at hs
        exact h2 m sv hs
    · simp only [GoldLoanDialogueState.markConfirmed, GoldLoanDialogueState.setSlotValue,
        lookupSlot_confirmSlotAt] at hm hs ⊢
      simp only [mem_insertName] at hm
      rcases hm with rfl | hm
      · rw [if_pos rfl] at hs
        rcases ho : lookupSlot (storeSlot st.slots m (SlotValue.mk' v c 0)) m with _ | sv0
        · rw [ho] at hs; exact absurd hs (by simp)
        · rw [ho] at hs
          simp only [Option.map_some'] at hs
          refine ⟨by rw [← Option.some.inj hs]; rfl, ?_⟩
          simp [mem_removeName]
      · by_cases hnm : n = m
        · rw [if_pos hnm] at hs
          rcases ho : lookupSlot (storeSlot st.slots n (SlotValue.mk' v c 0)) m with _ | sv0
          · rw [ho] at hs; exact absurd hs (by simp)
          · rw [ho] at hs
            simp only [Option.map_some'] at hs
            refine ⟨by rw [← Option.some.inj hs]; rfl, ?_⟩
            simp [mem_removeName, hnm]
        · rw [if_neg hnm] at hs
          rw [lookupSlot_storeSlot_ne st.slots n m _ (fun e => hnm e.symm)] at hs
          have := h3 m sv hm hs
          refine ⟨this.1, ?_⟩
          simp only [mem_removeName, not_and]
          intro hp; exact absurd hp this.2

theorem inv_updateSlot (T : DialogueStateTracker) (n v : String) (c : Rat)
    (src : ChangeSource) (ti : Nat) (h : Inv T.state) (hc0 : 0 ≤ c) (hc1 : c ≤ 1) :
    Inv (T.updateSlot n v c src ti).state := by
  unfold DialogueStateTracker.updateSlot
  by_cases he : T.state.getSlotValue n = some v
  · rw [if_pos he]; exact h
  · rw [if_neg he]
    exact inv_setThenMark T.state n v c T.config.autoConfirmConfidence h hc0 hc1

theorem pendingSlots_updateIntent (st : GoldLoanDialogueState) (i : String) (c : Rat) :
    (st.updateIntent i c).pendingSlots = st.pendingSlots := by
  unfold GoldLoanDialogueState.updateIntent
  split <;> rfl

theorem confirmedSlots_updateIntent (st : GoldLoanDialogueState) (i : String) (c : Rat) :
    (st.updateIntent i c).confirmedSlots = st.confirmedSlots := by
  unfold GoldLoanDialogueState.updateIntent
  split <;> rfl

theorem inv_updateIntent (st : GoldLoanDialogueState) (i : String) (c : Rat)
    (h : Inv st) : Inv (st.updateIntent i c) := by
  unfold Inv
  rw [pendingSlots_updateIntent, confirmedSlots_updateIntent, slots_updateIntent]
  exact h

/-- Generic invariant preservation through a left fold. -/
theorem inv_foldl {α : Type} (step : DialogueStateTracker → α → DialogueStateTracker)
    (P : α → Prop)
    (hstep : ∀ T x, Inv T.state → P x → Inv (step T x).state)
    (l : List α) (T : DialogueStateTracker)
    (h : Inv T.state) (hl : ∀ x ∈ l, P x) : Inv ((l.foldl step T).state) := by
  induction l generalizing T with
  | nil => exact h
  | cons x rest ih =>
    rw [List.foldl_cons]
    exact ih (step T x) (hstep T x h (hl x (List.mem_cons_self x rest)))
      (fun y hy => hl y (List.mem_cons_of_mem x hy))

theorem inv_correctionStep (ti : Nat) (T : DialogueStateTracker)
    (p : String × ExtractedSlot) (h : Inv T.state)
    (hp : 0 ≤ p.2.confidence ∧ p.2.confidence ≤ 1) :
    Inv ((DialogueStateTracker.correctionStep ti T p).state) := by
  unfold DialogueStateTracker.correctionStep
  cases p.2.value with
  | none => exact h
  | some newValue =>
    dsimp only
    cases ((T.history.reverse.take T.config.correctionLookback).filter
        (fun c => c.slotName = p.1)).head? with
    | none => exact h
    | some recent =>
      dsimp only
      by_cases hne : recent.newValue ≠ some newValue
      · rw [if_pos hne]
        refine inv_updateSlot T p.1 newValue _ ChangeSource.Correction ti h ?_ ?_
        · exact le_trans (by norm_num) (le_max_right p.2.confidence (9/10))
        · exact max_le hp.2 (by norm_num)
      · rw [if_neg hne]
        exact h

theorem inv_slotUpdateStep (ti : Nat) (T : DialogueStateTracker)
    (p : String × ExtractedSlot) (h : Inv T.state)
    (hp : 0 ≤ p.2.confidence ∧ p.2.confidence ≤ 1) :
    Inv ((DialogueStateTracker.slotUpdateStep ti T p).state) := by
  unfold DialogueStateTracker.slotUpdateStep
  by_cases hc : p.2.confidence ≥ T.config.minSlotConfidence
  · rw [if_pos hc]
    cases p.2.value with
    | none => exact h
    | some v =>
      dsimp only
      exact inv_updateSlot T p.1 v p.2.confidence ChangeSource.UserUtterance ti h hp.1 hp.2
  · rw [if_neg hc]
    exact h

theorem inv_autoConfirmStep (T : DialogueStateTracker) (n : String) (h : Inv T.state) :
    Inv ((DialogueStateTracker.autoConfirmStep T n).state) := by
  unfold DialogueStateTracker.autoConfirmStep
  cases T.state.getSlotWithConfidence n with
  | none => exact h
  | some sv =>
    dsimp only
    by_cases hc : sv.confidence ≥ T.config.autoConfirmConfidence
    · rw [if_pos hc]
      exact inv_markConfirmed T.state n h
    · rw [if_neg hc]
      exact h

theorem inv_update (T : DialogueStateTracker) (intent : DetectedIntent)
    (h : Inv T.state)
    (hok : ∀ p ∈ intent.slots, 0 ≤ p.2.confidence ∧ p.2.confidence ≤ 1) :
    Inv (T.update intent).state := by
  unfold DialogueStateTracker.update DialogueStateTracker.detectAndApplyCorrections
    DialogueStateTracker.checkAutoConfirmations
  apply inv_foldl DialogueStateTracker.autoConfirmStep (fun _ => True)
    (fun T n hT _ => inv_autoConfirmStep T n hT) _ _ _ (fun _ _ => trivial)
  apply inv_updateIntent
  apply inv_foldl (DialogueStateTracker.slotUpdateStep T.history.length)
    (fun p => 0 ≤ p.2.confidence ∧ p.2.confidence ≤ 1)
    (inv_slotUpdateStep T.history.length) _ _ _ hok
  by_cases hen : T.config.enableCorrections = true
  · rw [if_pos hen]
    exact inv_foldl (DialogueStateTracker.correctionStep T.history.length)
      (fun p => 0 ≤ p.2.confidence ∧ p.2.confidence ≤ 1)
      (inv_correctionStep T.history.length) intent.slots T h hok
  · rw [if_neg hen]
    exact h

/-- Dialogue-state operations quantified over by C6 (the public mutators of
DialogueStateTracker together with the mark_pending / mark_confirmed state
methods). -/
inductive DstOp where
  | update (intent : DetectedIntent)
  | updateSlot (slotName value : String) (confidence : Rat) (source : ChangeSource)
      (turnIndex : Nat)
  | confirmSlot (slotName : String)
  | clearSlot (slotName : String)
  | markPending (slotName : String)
  | markConfirmed (slotName : String)

/-- Apply a dialogue-state operation to the tracker. -/
def applyOp (T : DialogueStateTracker) : DstOp → DialogueStateTracker
  | DstOp.update i => T.update i
  | DstOp.updateSlot n v c src ti => T.updateSlot n v c src ti
  | DstOp.confirmSlot n => T.confirmSlot n
  | DstOp.clearSlot n => T.clearSlot n
  | DstOp.markPending n => { T with state := T.state.markPending n }
  | DstOp.markConfirmed n => { T with state := T.state.markConfirmed n }

/-- Per the data model, confidences handed to the tracker lie in [0,1]. -/
def opConfOK : DstOp → Prop
  | DstOp.update i => ∀ p ∈ i.slots, 0 ≤ p.2.confidence ∧ p.2.confidence ≤ 1
  | DstOp.updateSlot _ _ c _ _ => 0 ≤ c ∧ c ≤ 1
  | _ => True

/-- C6: every dialogue-state operation (update, update_slot, confirm_slot,
clear_slot, mark_pending, mark_confirmed), applied with data-model-conforming
confidences, preserves the invariants: pending and confirmed slot sets stay
disjoint, every stored confidence stays in [0,1], and a filled confirmed slot
has confidence exactly 1 and is not pending. -/
theorem c6_operations_preserve_invariants (T : DialogueStateTracker) (op : DstOp)
    (hInv : Inv T.state) (hok : opConfOK op) : Inv (applyOp T op).state := by
  cases op with
  | update i => exact inv_update T i hInv hok
  | updateSlot n v c src ti => exact inv_updateSlot T n v c src ti hInv hok.1 hok.2
  | confirmSlot n => exact inv_markConfirmed T.state n hInv
  | clearSlot n => exact inv_clearSlot T.state n hInv
  | markPending n => exact inv_markPending T.state n hInv
  | markConfirmed n => exact inv_markConfirmed T.state n hInv

/-- C6 witness: a fresh tracker receiving update_slot("loan_amount",
"500000", 0.7) keeps the invariants. -/
theorem c6_operations_preserve_invariants_witness :
    Inv ((applyOp DialogueStateTracker.new
      (DstOp.updateSlot "loan_amount" "500000" (7/10) ChangeSource.UserUtterance 0)).state) :=
  c6_operations_preserve_invariants DialogueStateTracker.new
    (DstOp.updateSlot "loan_amount" "500000" (7/10) ChangeSource.UserUtterance 0)
    inv_new ⟨by norm_num, by norm_num⟩

/-! ## C7: amount extraction (dst/extractor.rs, SlotExtractor::extract_amount)

The five amount regexes of build_amount_patterns are not re-implemented;
instead the regex engine is an oracle: extract_amount is embedded as a
function of the group-1 capture each pattern produced on the lowercased
utterance (an Option String per pattern, in pattern order).  Every run of the
Rust function corresponds to one such capture list, so a property proved for
all capture lists holds for all utterances.  All checks the claim is about
(comma stripping, the phone-number shape test, the 10^9 ceiling, the
context-keyword confidence) happen after capturing and are embedded exactly. -/

/-- Amount multiplier (extractor.rs lines 41-58). -/
inductive AmountMultiplier where
  | unit
  | thousand
  | lakh
  | crore
  deriving Repr, DecidableEq

/-- Mirror of AmountMultiplier::value. -/
def AmountMultiplier.value : AmountMultiplier → Rat
  | unit => 1
  | thousand => 1000
  | lakh => 100000
  | crore => 10000000

/-- Multipliers of the five amount patterns, in source order
(extractor.rs lines 80-94: crore, lakh, thousand, rupee-prefixed unit,
plain 5-8 digit unit). -/
def amountPatternMultipliers : List AmountMultiplier :=
  [AmountMultiplier.crore, AmountMultiplier.lakh, AmountMultiplier.thousand,
   AmountMultiplier.unit, AmountMultiplier.unit]

/-- Mirror of str::replace(',', ""). -/
def removeCommas (s : String) : String :=
  String.mk (s.toList.filter (fun c => c ≠ ','))

/-- ASCII lowercase of one character (Rust str::to_lowercase; its Unicode
cases beyond ASCII never affect the embedded checks, which compare against
ASCII keywords and digits). -/
def charToLower (c : Char) : Char :=
  if 'A' ≤ c ∧ c ≤ 'Z' then Char.ofNat (c.toNat + 32) else c

/-- Mirror of str::to_lowercase. -/
def strToLower (s : String) : String :=
  String.mk (s.toList.map charToLower)

/-- Substring occurrence on character lists (the empty pattern occurs
everywhere, as with Rust str::contains). -/
def subList (pat : List Char) : List Char → Bool
  | [] => pat.isEmpty
  | c :: rest => pat.isPrefixOf (c :: rest) || subList pat rest

/-- Mirror of str::contains (substring test). -/
def strContainsSub (s pat : String) : Bool :=
  subList pat.toList s.toList

/-- First-character test of the phone-number guard (extractor.rs lines
491-494): first digit between 6 and 9. -/
def firstDigitSixToNine (s : String) : Bool :=
  match s.toList.head? with
  | some c => decide ('6' ≤ c) && decide (c ≤ '9')
  | none => false

/-- Body of the per-pattern block of extract_amount (extractor.rs lines
482-521), given the captured group-1 string: strip commas, parse, apply the
multiplier, skip phone-look-alikes (10 characters starting 6-9), skip amounts
above 10^9, and compute the context confidence.  Returns the parsed digit
string along with (amount, confidence). -/
def processCapture (lower : String) (cap : String) (mult : AmountMultiplier) :
    Option (String × Rat × Rat) :=
  let numStr := removeCommas cap
  match parseDec numStr with
  | none => none
  | some num =>
    let amount := num * mult.value
    let cleanStr := removeCommas numStr
    if cleanStr.length = 10 && firstDigitSixToNine cleanStr then none
    else if amount > 1000000000 then none
    else
      let confidence : Rat :=
        if strContainsSub lower "loan" || strContainsSub lower "lakh"
            || strContainsSub lower "amount" || strContainsSub lower "chahiye" then 9/10
        else 7/10
      some (numStr, amount, confidence)

/-- The pattern loop of extract_amount: first pattern whose capture passes
every check wins; a failed check falls through to the next pattern. -/
def amountLoop (lower : String) : List (AmountMultiplier × Option String) →
    Option (String × Rat × Rat)
  | [] => none
  | (m, oc) :: rest =>
    match oc with
    | none => amountLoop lower rest
    | some cap =>
      match processCapture lower cap m with
      | some r => some r
      | none => amountLoop lower rest

/-- Mirror of extract_amount (extractor.rs lines 478-527) over the capture
oracle, also exposing the matched digit string. -/
def extractAmountFull (utterance : String) (captures : List (Option String)) :
    Option (String × Rat × Rat) :=
  let lower := strToLower utterance
  amountLoop lower (amountPatternMultipliers.zip captures)

/-- Mirror of extract_amount's public result (amount, confidence). -/
def extract_amount (utterance : String) (captures : List (Option String)) :
    Option (Rat × Rat) :=
  (extractAmountFull utterance captures).map (fun r => (r.2.1, r.2.2))

theorem removeCommas_idem (s : String) : removeCommas (removeCommas s) = removeCommas s := by
  unfold removeCommas
  rw [String.toList]
  show String.mk (List.filter _ (String.mk _).data) = _
  rw [List.filter_filter]
  simp

theorem processCapture_sound (lower cap : String) (m : AmountMultiplier)
    (r : String × Rat × Rat) (h : processCapture lower cap m = some r) :
    r.2.1 ≤ 1000000000 ∧
    ¬((removeCommas r.1).length = 10 ∧ firstDigitSixToNine (removeCommas r.1) = true) := by
  unfold processCapture at h
  dsimp only at h
  rcases hp : parseDec (removeCommas cap) with _ | num
  · rw [hp] at h; exact absurd h (by simp)
  · rw [hp] at h
    dsimp only at h
    by_cases hph : (removeCommas (removeCommas cap)).length = 10 &&
        firstDigitSixToNine (removeCommas (removeCommas cap))
    · rw [if_pos hph] at h; exact absurd h (by simp)
    · rw [if_neg hph] at h
      by_cases hbig : num * m.value > 1000000000
      · rw [if_pos hbig] at h; exact absurd h (by simp)
      · rw [if_neg hbig] at h
        have hr : r = (removeCommas cap, num * m.value, _) := (Option.some.inj h).symm
        constructor
        · rw [hr]
          exact le_of_not_lt hbig
        · rw [hr]
          intro hcontra
          apply hph
          rw [Bool.and_eq_true, decide_eq_true_eq]
          exact ⟨hcontra.1, hcontra.2⟩

theorem amountLoop_sound (lower : String) (pats : List (AmountMultiplier × Option String))
    (r : String × Rat × Rat) (h : amountLoop lower pats = some r) :
    r.2.1 ≤ 1000000000 ∧
    ¬((removeCommas r.1).length = 10 ∧ firstDigitSixToNine (removeCommas r.1) = true) := by
  induction pats with
  | nil => exact absurd h (by simp [amountLoop])
  | cons p rest ih =>
    rcases p with ⟨m, _ | cap⟩
    · exact ih h
    · rw [show amountLoop lower ((m, some cap) :: rest) =
          (match processCapture lower cap m with
           | some r => some r
           | none => amountLoop lower rest) from rfl] at h
      rcases hp : processCapture lower cap m with _ | r0
      · rw [hp] at h
        exact ih h
      · rw [hp] at h
        have := Option.some.inj h
        exact this ▸ processCapture_sound lower cap m r0 hp

/-- C7: extract_amount never returns an amount above 10^9, and the digit
string it accepted is never a 10-character number starting with 6-9 (an
Indian mobile shape).  Quantified over the utterance and over every possible
outcome of the five regex captures. -/
theorem c7_amount_sanity (utterance : String) (captures : List (Option String))
    (s : String) (a conf : Rat)
    (h : extractAmountFull utterance captures = some (s, a, conf)) :
    a ≤ 1000000000 ∧
    ¬((removeCommas s).length = 10 ∧ firstDigitSixToNine (removeCommas s) = true) := by
  have := amountLoop_sound (strToLower utterance)
    (amountPatternMultipliers.zip captures) (s, a, conf) h
  exact this

/-- C7 witness: "I need 5 lakh loan" with the lakh pattern capturing "5"
yields 500000 at confidence 0.9, inside the sanity bounds. -/
theorem c7_amount_sanity_witness :
    (500000 : Rat) ≤ 1000000000 ∧
    ¬((removeCommas "5").length = 10 ∧ firstDigitSixToNine (removeCommas "5") = true) :=
  c7_amount_sanity "I need 5 lakh loan" [none, some "5", none, none, none]
    "5" 500000 (9/10) (by decide)

/-! ## Archival memory (memory/archival.rs) -/

/-- Type of a memory note (archival.rs lines 161-177). -/
inductive MemoryType where
  | CustomerFact
  | ConversationSummary
  | DomainKnowledge
  | Preference
  | Event
  | Objection
  | CompetitorMention
  deriving Repr, DecidableEq

/-- Source of a memory note (archival.rs lines 180-190). -/
inductive MemorySource where
  | Conversation
  | System
  | External
  | Inferred
  deriving Repr, DecidableEq

/-- UTF-8 byte length of a string (Rust str::len). -/
def byteLen (s : String) : Nat := (s.toList.map Char.utf8Size).sum

/-- Set insert on an id list (HashSet<Uuid>::insert; Uuid modelled as Nat). -/
def insertId (l : List Nat) (n : Nat) : List Nat := if n ∈ l then l else n :: l

/-- Whitespace word splitter (Rust str::split_whitespace), accumulator form. -/
def splitWsAux : List Char → List Char → List (List Char)
  | [], cur => if cur.isEmpty then [] else [cur.reverse]
  | c :: rest, cur =>
    if c.isWhitespace then
      if cur.isEmpty then splitWsAux rest [] else cur.reverse :: splitWsAux rest []
    else splitWsAux rest (c :: cur)

/-- Mirror of str::split_whitespace as a word list. -/
def wordsOf (s : String) : List String := (splitWsAux s.toList []).map String.mk

/-- Archival memory configuration (archival.rs lines 19-43). -/
structure ArchivalMemoryConfig where
  maxMemories : Nat := 10000
  defaultTopK : Nat := 5
  minSimilarity : Rat := 1/2
  enableLinking : Bool := true
  collectionName : String := "agent_archival_memory"
  deriving Repr, DecidableEq

/-- Memory note (archival.rs lines 48-77).  Uuids are modelled as naturals,
link sets as duplicate-free lists, timestamps as naturals; the embedding-free
test path is embedded (embedding = none is implicit). -/
structure MemoryNote where
  id : Nat
  sessionId : String
  content : String
  contextDescription : String := ""
  keywords : List String := []
  tags : List String := []
  links : List Nat := []
  memoryType : MemoryType := MemoryType.CustomerFact
  source : MemorySource := MemorySource.Conversation
  createdAt : Nat := 0
  lastAccessed : Nat := 0
  accessCount : Nat := 0
  deriving Repr, DecidableEq

/-- Relatedness test of auto_link_memory (archival.rs lines 460-476): keyword
overlap, tag overlap, or one of the first five words of the new content being
a substring (longer than three bytes) of the existing content. -/
def relatedTo (note existing : MemoryNote) : Bool :=
  (note.keywords.any (fun k => existing.keywords.contains k)) ||
  (note.tags.any (fun t => existing.tags.contains t)) ||
  (((wordsOf note.content).take 5).any
    (fun w => strContainsSub existing.content w && decide (byteLen w > 3)))

/-- One iteration of auto_link_memory's loop over existing notes
(archival.rs lines 453-479): skip the note itself, else add a one-way link
from the new note to the related existing note. -/
def autoLinkStep (acc existing : MemoryNote) : MemoryNote :=
  if existing.id = acc.id then acc
  else if relatedTo acc existing then { acc with links := insertId acc.links existing.id }
  else acc

/-- Mirror of auto_link_memory (archival.rs lines 450-480): only the NEW note
is mutated; the stored notes are only read. -/
def autoLinkMemory (mems : List MemoryNote) (note : MemoryNote) : MemoryNote :=
  mems.foldl autoLinkStep note

/-- Archival memory store (archival.rs lines 207-213). -/
structure ArchivalMemory where
  config : ArchivalMemoryConfig
  memories : List MemoryNote := []
  sessionIndex : List (String × List Nat) := []
  deriving Repr, DecidableEq

/-- Mirror of the session_index entry().or_insert().push(id) update. -/
def indexAdd : List (String × List Nat) → String → Nat → List (String × List Nat)
  | [], sid, id => [(sid, [id])]
  | (k, ids) :: rest, sid, id =>
    if k = sid then (k, ids ++ [id]) :: rest else (k, ids) :: indexAdd rest sid id

/-- Eviction comparator of maybe_evict (archival.rs lines 526-535): access
count ascending, then last-accessed ascending. -/
def evictLe (a b : MemoryNote) : Bool :=
  a.accessCount < b.accessCount ||
    (a.accessCount = b.accessCount && a.lastAccessed ≤ b.lastAccessed)

/-- Mirror of maybe_evict (archival.rs lines 517-540): when over capacity,
sort by the eviction order and drop the least-accessed prefix. -/
def ArchivalMemory.maybeEvict (arch : ArchivalMemory) : ArchivalMemory :=
  if arch.memories.length ≤ arch.config.maxMemories then arch
  else
    let sorted := arch.memories.mergeSort evictLe
    { arch with memories := sorted.drop (arch.memories.length - arch.config.maxMemories) }

/-- Mirror of ArchivalMemory::insert (archival.rs lines 232-255): auto-link
when enabled, push the note, index it by session, maybe evict; returns the
note id. -/
def ArchivalMemory.insert (arch : ArchivalMemory) (note : MemoryNote) :
    ArchivalMemory × Nat :=
  let id := note.id
  let sessionId := note.sessionId
  let note := if arch.config.enableLinking then autoLinkMemory arch.memories note else note
  let arch := { arch with
    memories := arch.memories ++ [note]
    sessionIndex := indexAdd arch.sessionIndex sessionId id }
  (arch.maybeEvict, id)

/-! ## C8: insert links one way, not both ways -/

/-- First note inserted in the C8 scenario. -/
def c8Note1 : MemoryNote :=
  { id := 1, sessionId := "session-1", content := "Customer interested in gold loan",
    keywords := ["gold", "loan"] }

/-- Second note, sharing the keyword "gold" with the first. -/
def c8Note2 : MemoryNote :=
  { id := 2, sessionId := "session-1", content := "Gold loan rate is 10.5 percent",
    keywords := ["gold", "loan", "rate"] }

/-- Archival store after inserting both C8 notes with linking enabled. -/
def c8Arch2 : ArchivalMemory :=
  ((({ config := {} } : ArchivalMemory).insert c8Note1).1.insert c8Note2).1

/-- C8 counterexample: with linking enabled, the second note (keyword overlap
with the first, hence judged related) ends with links = [1], but the first
note's links remain empty: the link is NOT added both ways. -/
theorem c8_counterexample :
    c8Arch2.config.enableLinking = true ∧
    relatedTo c8Note2 c8Note1 = true ∧
    c8Arch2.memories.map (fun n => (n.id, n.links)) = [(1, []), (2, [1])] := by
  refine ⟨by decide, by decide, by decide⟩

theorem autoLinkStep_fields (acc e : MemoryNote) :
    (autoLinkStep acc e).id = acc.id ∧
    (autoLinkStep acc e).keywords = acc.keywords ∧
    (autoLinkStep acc e).tags = acc.tags ∧
    (autoLinkStep acc e).content = acc.content := by
  unfold autoLinkStep
  by_cases h1 : e.id = acc.id
  · rw [if_pos h1]; exact ⟨rfl, rfl, rfl, rfl⟩
  · rw [if_neg h1]
    by_cases h2 : relatedTo acc e
    · rw [if_pos h2]; exact ⟨rfl, rfl, rfl, rfl⟩
    · rw [if_neg h2]; exact ⟨rfl, rfl, rfl, rfl⟩

theorem relatedTo_congr (a b e : MemoryNote) (hk : a.keywords = b.keywords)
    (ht : a.tags = b.tags) (hc : a.content = b.content) :
    relatedTo a e = relatedTo b e := by
  unfold relatedTo
  rw [hk, ht, hc]

theorem mem_insertId (l : List Nat) (n m : Nat) :
    m ∈ insertId l n ↔ m = n ∨ m ∈ l := by
  unfold insertId
  by_cases h : n ∈ l
  · rw [if_pos h]
    constructor
    · exact Or.inr
    · rintro (rfl | hm)
      · exact h
      · exact hm
  · rw [if_neg h]
    simp

theorem autoLinkStep_links_mono (acc e : MemoryNote) (x : Nat) (hx : x ∈ acc.links) :
    x ∈ (autoLinkStep acc e).links := by
  unfold autoLinkStep
  by_cases h1 : e.id = acc.id
  · rw [if_pos h1]; exact hx
  · rw [if_neg h1]
    by_cases h2 : relatedTo acc e
    · rw [if_pos h2]
      exact (mem_insertId acc.links e.id x).mpr (Or.inr hx)
    · rw [if_neg h2]; exact hx

theorem autoLinkMemory_spec (mems : List MemoryNote) (acc : MemoryNote) :
    (autoLinkMemory mems acc).id = acc.id ∧
    (autoLinkMemory mems acc).keywords = acc.keywords ∧
    (autoLinkMemory mems acc).tags = acc.tags ∧
    (autoLinkMemory mems acc).content = acc.content ∧
    (∀ x ∈ acc.links, x ∈ (autoLinkMemory mems acc).links) ∧
    (∀ e ∈ mems, e.id ≠ acc.id → relatedTo acc e = true →
        e.id ∈ (autoLinkMemory mems acc).links) := by
  induction mems generalizing acc with
  | nil =>
    exact ⟨rfl, rfl, rfl, rfl, fun x hx => hx, fun e he => absurd he (List.not_mem_nil e)⟩
  | cons e rest ih =>
    have hfields := autoLinkStep_fields acc e
    have ihe := ih (autoLinkStep acc e)
    have hid : (autoLinkMemory (e :: rest) acc) = autoLinkMemory rest (autoLinkStep acc e) := by
      unfold autoLinkMemory
      rw [List.foldl_cons]
    refine ⟨?_, ?_, ?_, ?_, ?_, ?_⟩
    · rw [hid, ihe.1, hfields.1]
    · rw [hid, ihe.2.1, hfields.2.1]
    · rw [hid, ihe.2.2.1, hfields.2.2.1]
    · rw [hid, ihe.2.2.2.1, hfields.2.2.2]
    · intro x hx
      rw [hid]
      exact ihe.2.2.2.2.1 x (autoLinkStep_links_mono acc e x hx)
    · intro e' he' hne hrel
      rw [hid]
      rcases List.mem_cons.mp he' with rfl | he'
      · apply ihe.2.2.2.2.1
        unfold autoLinkStep
        rw [if_neg hne, if_pos hrel]
        exact (mem_insertId acc.links e'.id e'.id).mpr (Or.inl rfl)
      · refine ihe.2.2.2.2.2 e' he' ?_ ?_
        · rw [hfields.1]; exact hne
        · rw [relatedTo_congr (autoLinkStep acc e) acc e' hfields.2.1 hfields.2.2.1
            hfields.2.2.2]
          exact hrel

/-- C8 amended: with linking enabled and capacity not exceeded, insert(note)
appends the auto-linked note and leaves every stored note untouched: the NEW
note's links gain the id of each related existing note (one way), and no
existing note gains a link back. -/
theorem c8_insert_links_one_way (arch : ArchivalMemory) (note : MemoryNote)
    (hlink : arch.config.enableLinking = true)
    (hcap : arch.memories.length + 1 ≤ arch.config.maxMemories) :
    (arch.insert note).1.memories = arch.memories ++ [autoLinkMemory arch.memories note] ∧
    (∀ e ∈ arch.memories, e.id ≠ note.id → relatedTo note e = true →
        e.id ∈ (autoLinkMemory arch.memories note).links) := by
  have hspec := autoLinkMemory_spec arch.memories note
  constructor
  · unfold ArchivalMemory.insert
    rw [hlink]
    dsimp only [if_true]
    unfold ArchivalMemory.maybeEvict
    rw [if_pos (by simpa using hcap)]
    simp
  · exact hspec.2.2.2.2.2

/-- C8 amended witness at the concrete two-note scenario. -/
theorem c8_insert_links_one_way_witness :
    (((({ config := {} } : ArchivalMemory).insert c8Note1).1.insert c8Note2).1.memories =
      (({ config := {} } : ArchivalMemory).insert c8Note1).1.memories ++
        [autoLinkMemory (({ config := {} } : ArchivalMemory).insert c8Note1).1.memories
          c8Note2]) ∧
    (∀ e ∈ (({ config := {} } : ArchivalMemory).insert c8Note1).1.memories,
      e.id ≠ c8Note2.id → relatedTo c8Note2 e = true →
        e.id ∈ (autoLinkMemory
          (({ config := {} } : ArchivalMemory).insert c8Note1).1.memories c8Note2).links) :=
  c8_insert_links_one_way (({ config := {} } : ArchivalMemory).insert c8Note1).1 c8Note2
    (by decide) (by decide)

/-! ## Agentic memory (memory/mod.rs; recall and core tiers spec-modelled)

memory/recall.rs and memory/core.rs are not under src/ (only mod.rs uses
them), so the recall FIFO and the core blocks are modelled from the
specification; compact, get_stats, summarize_turns and simple_summary are
embedded from memory/mod.rs. -/

/-- Role of a conversation turn (spec section 3, ConversationTurn). -/
inductive TurnRole where
  | User
  | Assistant
  | System
  deriving Repr, DecidableEq

/-- Conversation turn (spec section 3): sequence number, role, content and
the token estimate (byte length / 4 per spec section 4.7). -/
structure ConversationTurn where
  seq : Nat := 0
  role : TurnRole
  content : String
  estimatedTokens : Nat
  deriving Repr, DecidableEq

/-- Modelled from the spec: ConversationTurn::new estimates tokens as byte
length / 4 (spec section 4.7, recall memory). -/
def mkTurn (role : TurnRole) (content : String) : ConversationTurn :=
  { role := role, content := content, estimatedTokens := byteLen content / 4 }

/-- Modelled from the spec: the recall tier (memory/recall.rs is not under
src/).  It keeps the FIFO window of recent turns; fetching the
pending-summarization turns is a read (eviction is a separate step in the
spec's compaction procedure, section 4.7). -/
structure RecallMemory where
  fifo : List ConversationTurn := []
  deriving Repr, DecidableEq

/-- Modelled from the spec: fifo_tokens sums the turns' token estimates. -/
def RecallMemory.fifoTokens (r : RecallMemory) : Nat :=
  (r.fifo.map (fun t => t.estimatedTokens)).sum

/-- Modelled from the spec: get_pending_summarization returns the FIFO turns
awaiting summarization without removing them. -/
def RecallMemory.getPendingSummarization (r : RecallMemory) : List ConversationTurn :=
  r.fifo

/-- Modelled from the spec: the core tier (memory/core.rs is not under src/),
two always-in-context text blocks with a byte-length/4 token estimate. -/
structure CoreMemory where
  humanText : String := ""
  personaText : String := ""
  deriving Repr, DecidableEq

/-- Modelled from the spec: estimated_tokens of the core blocks. -/
def CoreMemory.estimatedTokens (c : CoreMemory) : Nat :=
  (byteLen c.humanText + byteLen c.personaText) / 4

/-- Memory configuration (memory/mod.rs lines 58-88, with its defaults). -/
structure AgenticMemoryConfig where
  maxContextTokens : Nat := 4096
  highWatermarkTokens : Nat := 3072
  lowWatermarkTokens : Nat := 2048
  autoSummarize : Bool := true
  deriving Repr, DecidableEq

/-- Memory statistics (memory/mod.rs lines 91-107 and get_stats, lines
342-359). -/
structure MemoryStats where
  coreTokens : Nat
  fifoTokens : Nat
  archivalCount : Nat
  totalContextTokens : Nat
  aboveHighWatermark : Bool
  aboveMaxLimit : Bool
  deriving Repr, DecidableEq

/-- Agentic memory (memory/mod.rs lines 115-127).  The llm slot is None, as
constructed by AgenticMemory::new; the model backend is an external
collaborator, so summarize_turns takes the simple_summary fallback
(memory/mod.rs lines 399-409). -/
structure AgenticMemory where
  config : AgenticMemoryConfig := {}
  core : CoreMemory := {}
  «recall» : RecallMemory := {}
  archival : ArchivalMemory := { config := {} }
  sessionId : String
  deriving Repr, DecidableEq

/-- Mirror of get_stats (memory/mod.rs lines 342-359). -/
def AgenticMemory.getStats (m : AgenticMemory) : MemoryStats :=
  let coreTokens := m.core.estimatedTokens
  let fifoTokens := m.recall.fifoTokens
  let total := coreTokens + fifoTokens
  { coreTokens := coreTokens, fifoTokens := fifoTokens,
    archivalCount := m.archival.memories.length,
    totalContextTokens := total,
    aboveHighWatermark := decide (total > m.config.highWatermarkTokens),
    aboveMaxLimit := decide (total > m.config.maxContextTokens) }

/-- The char prefix of exactly n bytes, when n is a UTF-8 boundary; none
models the Rust panic of byte slicing s[..n] at a non-boundary. -/
def takePrefixBytes : List Char → Nat → Option (List Char)
  | _, 0 => some []
  | [], _ => none
  | c :: rest, n =>
    if c.utf8Size ≤ n then (takePrefixBytes rest (n - c.utf8Size)).map (fun l => c :: l)
    else none

/-- Mirror of simple_summary (memory/mod.rs lines 442-456): keep user turns,
truncate contents longer than 50 bytes at byte offset 50 with an ellipsis,
join with "; ".  The byte slice t.content[..50] panics when offset 50 falls
inside a multi-byte character; the panic is modelled as none. -/
def simpleSummary (turns : List ConversationTurn) : Option String :=
  ((turns.filter (fun t => t.role = TurnRole.User)).mapM
      (fun t =>
        if byteLen t.content > 50 then
          (takePrefixBytes t.content.toList 50).map (fun p => String.mk p ++ "...")
        else some t.content)).map
    (fun userContent => "User discussed: " ++ String.intercalate "; " userContent)

/-- Mirror of compact (memory/mod.rs lines 372-396) with the fallback
summarizer: fetch pending turns, summarize, insert a ConversationSummary
archival note (Uuid::new_v4 modelled as the supplied fresh id).  some models
Ok; none models the panic reachable through simple_summary.  No recall
eviction happens anywhere in the body. -/
def AgenticMemory.compact (m : AgenticMemory) (freshId : Nat) : Option AgenticMemory :=
  let pending := m.recall.getPendingSummarization
  if pending.isEmpty then some m
  else
    match simpleSummary pending with
    | none => none
    | some summary =>
      let note : MemoryNote :=
        { id := freshId, sessionId := m.sessionId, content := summary,
          contextDescription := "Conversation summary", tags := ["summary"],
          memoryType := MemoryType.ConversationSummary }
      some { m with archival := (m.archival.insert note).1 }

/-! ## C3: compaction does not bound core + FIFO and does not evict -/

/-- Failing input for C3: a memory whose single FIFO turn alone exceeds
max_context_tokens = 10. -/
def c3Memory : AgenticMemory :=
  { config := { maxContextTokens := 10, highWatermarkTokens := 8, lowWatermarkTokens := 5 },
    sessionId := "session-1",
    «recall» := { fifo := [mkTurn TurnRole.User
      "I want a gold loan of five lakh rupees today"] } }

/-- C3: compact() returns Ok on c3Memory, yet the FIFO is unchanged (the
summarized turns are NOT evicted) and core + FIFO tokens still exceed
max_context_tokens afterwards.  compact (memory/mod.rs 372-396) only inserts
an archival summary note; no step removes turns from the recall FIFO. -/
theorem c3_compact_keeps_fifo_over_limit :
    ((c3Memory.compact 99).map (fun m => m.recall.fifo)) = some c3Memory.recall.fifo ∧
    ((c3Memory.compact 99).map (fun m => m.getStats.totalContextTokens)) = some 11 ∧
    c3Memory.config.maxContextTokens = 10 ∧
    ((c3Memory.compact 99).map (fun m => m.getStats.aboveMaxLimit)) = some true ∧
    ((c3Memory.compact 99).map (fun m => m.archival.memories.length)) = some 1 := by
  refine ⟨by decide, by decide, by decide, by decide, by decide⟩

/-! ## C10: simple_summary panics on multi-byte content -/

/-- Failing input for C10: one user turn of seventeen Devanagari characters
(3 bytes each, 51 bytes total), so byte offset 50 falls inside the final
character. -/
def c10Turns : List ConversationTurn :=
  [mkTurn TurnRole.User "ककककककककककककककककक"]

/-- C10: the fallback summarizer, fed a user turn whose content is longer
than 50 bytes with byte offset 50 inside a multi-byte character, hits the
panicking byte slice content[..50] (modelled as none).  On ASCII content of
the same length it succeeds, isolating the boundary condition. -/
theorem c10_simple_summary_panics :
    simpleSummary c10Turns = none ∧
    byteLen "ककककककककककककककककक" = 51 ∧
    simpleSummary [mkTurn TurnRole.User
      "012345678901234567890123456789012345678901234567890"] =
      some "User discussed: 01234567890123456789012345678901234567890123456789..." := by
  refine ⟨by decide, by decide, by decide⟩

/-! ## Voice session (voice-agent-rust/crates/agent/src/voice_session.rs)

The streaming STT and TTS backends (pipeline crate's streaming modules) are
not under src/, so they are spec-modelled: the STT decoder state is the list
of consumed frames (spec section 4.3: process feeds samples, reset clears all
decoder state; partial emission needs a decoder and is not modelled), and the
TTS is an event queue consumed by process_next with barge_in / reset
flags (spec section 4.4).  The agent reply to the empty greeting prompt is
the session's greeting string.  A TTS stream that ends without a terminating
event makes the source's speak loop spin forever; the model stops there, and
every theorem below drives the loop with a stream that does terminate, where
model and source agree. -/

/-- Voice session state (voice_session.rs lines 53-65). -/
inductive VoiceSessionState where
  | Idle
  | Listening
  | Processing
  | Speaking
  | Ended
  deriving Repr, DecidableEq

/-- TTS events (spec section 4.4; pipeline tts streaming module not under
src/). -/
inductive TtsEvent where
  | Audio (samples : List Rat) (isFinal : Bool) (seq : Nat)
  | Complete
  | BargedIn (consumedMs : Nat)
  | Error (msg : String)
  deriving Repr, DecidableEq

/-- Voice session events (voice_session.rs lines 67-90).  The Agent variant's
AgentEvent payload is elided (never emitted on the embedded paths). -/
inductive VoiceSessionEvent where
  | Started (sessionId : String)
  | StateChanged (old new : VoiceSessionState)
  | PartialTranscript (text : String)
  | FinalTranscript (text : String)
  | Speaking (text : String)
  | AudioChunk (samples : List Rat) (sampleRate : Nat)
  | BargedIn
  | Agent
  | Error (msg : String)
  | Ended (reason : String)
  deriving Repr, DecidableEq

/-- Voice session configuration (voice_session.rs lines 16-50; agent, stt and
tts sub-configurations elided). -/
structure VoiceSessionConfig where
  bargeInEnabled : Bool := true
  silenceTimeoutMs : Nat := 800
  maxTurnDurationMs : Nat := 30000
  deriving Repr, DecidableEq

/-- Modelled from the spec: streaming STT decoder state (section 4.3) as the
frames it has consumed; reset() clears all decoder state. -/
structure SttModel where
  frames : List (List Rat) := []
  deriving Repr, DecidableEq

/-- Modelled from the spec: streaming TTS (section 4.4) as the queue of
events process_next will deliver, with flags recording barge_in() and
reset() calls. -/
structure TtsModel where
  queue : List TtsEvent := []
  bargeInCalled : Bool := false
  resetCalled : Bool := false
  sampleRate : Nat := 24000
  deriving Repr, DecidableEq

/-- Voice session (voice_session.rs lines 93-103).  The greeting field is the
agent's reply to the empty prompt (GoldLoanAgent is not under src/). -/
structure VoiceSession where
  sessionId : String
  config : VoiceSessionConfig := {}
  state : VoiceSessionState := VoiceSessionState.Idle
  events : List VoiceSessionEvent := []
  stt : SttModel := {}
  tts : TtsModel := {}
  greeting : String := ""
  deriving Repr, DecidableEq

namespace VoiceSession

/-- Event emission over the broadcast channel (the send at each event_tx
call site). -/
def emit (s : VoiceSession) (e : VoiceSessionEvent) : VoiceSession :=
  { s with events := s.events ++ [e] }

/-- Mirror of set_state (voice_session.rs lines 317-332): swap the state and
emit StateChanged when it changed. -/
def setState (s : VoiceSession) (newState : VoiceSessionState) : VoiceSession :=
  let old := s.state
  let s := { s with state := newState }
  if old ≠ newState then s.emit (VoiceSessionEvent.StateChanged old newState) else s

/-- Mean-square frame energy (voice_session.rs line 174); division by zero
(empty frame) yields 0 in the rational model and NaN in Rust - both fail the
energy > 0.01 test. -/
def frameEnergy (samples : List Rat) : Rat :=
  (samples.map (fun x => x * x)).sum / (samples.length : Rat)

/-- Mirror of handle_barge_in (voice_session.rs lines 275-285): TTS
barge_in(), emit BargedIn, TTS reset(), back to Listening.  The STT is not
touched. -/
def handleBargeIn (s : VoiceSession) : VoiceSession :=
  let s := { s with tts := { s.tts with bargeInCalled := true } }
  let s := s.emit VoiceSessionEvent.BargedIn
  let s := { s with tts := { s.tts with resetCalled := true } }
  s.setState VoiceSessionState.Listening

/-- Mirror of process_audio (voice_session.rs lines 158-183): in Listening
feed the STT; in Speaking with barge-in enabled, barge in when the frame
energy exceeds 0.01. -/
def processAudio (s : VoiceSession) (samples : List Rat) : VoiceSession :=
  match s.state with
  | VoiceSessionState.Listening =>
    { s with stt := { frames := s.stt.frames ++ [samples] } }
  | VoiceSessionState.Speaking =>
    if s.config.bargeInEnabled then
      if frameEnergy samples > 1/100 then s.handleBargeIn else s
    else s
  | _ => s

/-- The speak loop (voice_session.rs lines 237-268) over the TTS event
queue: forward Audio as AudioChunk (stopping on is_final), stop on Complete,
emit BargedIn and stop on BargedIn, fail on Error. -/
def ttsLoopAux : VoiceSession → List TtsEvent → Except String VoiceSession
  | s, [] => Except.ok s
  | s, e :: rest =>
    match e with
    | TtsEvent.Audio samples isFinal _ =>
      let s := s.emit (VoiceSessionEvent.AudioChunk samples s.tts.sampleRate)
      if isFinal then Except.ok s else ttsLoopAux s rest
    | TtsEvent.Complete => Except.ok s
    | TtsEvent.BargedIn _ => Except.ok (s.emit VoiceSessionEvent.BargedIn)
    | TtsEvent.Error msg => Except.error msg

/-- Mirror of speak (voice_session.rs lines 220-272): go to Speaking, emit
Speaking{text}, drain the TTS events, return to Listening.  The Hindi G2P
conversion only feeds the backend and cannot fail on the embedded paths. -/
def speak (s : VoiceSession) (text : String) : Except String VoiceSession :=
  let s1 := s.setState VoiceSessionState.Speaking
  let s2 := s1.emit (VoiceSessionEvent.Speaking text)
  match ttsLoopAux s2 s2.tts.queue with
  | Except.error e => Except.error e
  | Except.ok s3 => Except.ok (s3.setState VoiceSessionState.Listening)

/-- Mirror of start (voice_session.rs lines 143-155): FIRST set_state
Listening (emitting StateChanged), THEN send Started, then speak the
greeting. -/
def start (s : VoiceSession) : Except String VoiceSession :=
  let s1 := s.setState VoiceSessionState.Listening
  let s2 := s1.emit (VoiceSessionEvent.Started s.sessionId)
  speak s2 s.greeting

end VoiceSession

/-! ## C2: barge-in resets the TTS, not the STT -/

/-- Session used against C2: Speaking, barge-in enabled, the STT decoder
holding one consumed frame. -/
def c2Session : VoiceSession :=
  { sessionId := "s", state := VoiceSessionState.Speaking,
    stt := { frames := [[1]] } }

/-- C2 counterexample: a high-energy frame in Speaking with barge-in enabled
calls TTS barge_in, emits BargedIn, moves to Listening and resets the TTS -
but does NOT reset the STT: its decoder state (one consumed frame) is intact,
where the claim requires it back to the initial (empty) state. -/
theorem c2_counterexample :
    (c2Session.processAudio [1, 1]).tts.bargeInCalled = true ∧
    (c2Session.processAudio [1, 1]).events =
      [VoiceSessionEvent.BargedIn,
       VoiceSessionEvent.StateChanged VoiceSessionState.Speaking
         VoiceSessionState.Listening] ∧
    (c2Session.processAudio [1, 1]).state = VoiceSessionState.Listening ∧
    (c2Session.processAudio [1, 1]).tts.resetCalled = true ∧
    (c2Session.processAudio [1, 1]).stt = c2Session.stt ∧
    c2Session.stt ≠ ({} : SttModel) := by
  refine ⟨by decide, by decide, by decide, by decide, by decide, by decide⟩

/-- C2 amended: whenever a frame with speech energy (> 0.01) arrives in the
Speaking state with barge_in_enabled, the session calls TTS barge_in, emits a
BargedIn event, transitions to Listening, and resets the TTS; the STT decoder
state is left untouched. -/
theorem c2_barge_in_behaviour (s : VoiceSession) (samples : List Rat)
    (hst : s.state = VoiceSessionState.Speaking)
    (hen : s.config.bargeInEnabled = true)
    (henergy : VoiceSession.frameEnergy samples > 1/100) :
    (s.processAudio samples).tts.bargeInCalled = true ∧
    (s.processAudio samples).events =
      s.events ++ [VoiceSessionEvent.BargedIn,
        VoiceSessionEvent.StateChanged VoiceSessionState.Speaking
          VoiceSessionState.Listening] ∧
    (s.processAudio samples).state = VoiceSessionState.Listening ∧
    (s.processAudio samples).tts.resetCalled = true ∧
    (s.processAudio samples).stt = s.stt := by
  have hpa : s.processAudio samples = s.handleBargeIn := by
    simp only [VoiceSession.processAudio, hst, hen, if_true]
    rw [if_pos henergy]
  rw [hpa]
  unfold VoiceSession.handleBargeIn VoiceSession.setState VoiceSession.emit
  dsimp only
  rw [if_pos (by rw [hst]; decide)]
  refine ⟨rfl, ?_, rfl, rfl, rfl⟩
  dsimp only
  rw [hst]
  simp

/-- C2 amended witness at the concrete session. -/
theorem c2_barge_in_behaviour_witness :
    (c2Session.processAudio [1, 1]).tts.bargeInCalled = true ∧
    (c2Session.processAudio [1, 1]).events =
      c2Session.events ++ [VoiceSessionEvent.BargedIn,
        VoiceSessionEvent.StateChanged VoiceSessionState.Speaking
          VoiceSessionState.Listening] ∧
    (c2Session.processAudio [1, 1]).state = VoiceSessionState.Listening ∧
    (c2Session.processAudio [1, 1]).tts.resetCalled = true ∧
    (c2Session.processAudio [1, 1]).stt = c2Session.stt :=
  c2_barge_in_behaviour c2Session [1, 1] (by decide) (by decide) (by decide)

/-! ## C9: event order on start -/

/-- Fresh session used against C9, with a TTS stream of one Complete
event. -/
def c9Session : VoiceSession :=
  { sessionId := "test", greeting := "Namaste, main Priya bol rahi hoon",
    tts := { queue := [TtsEvent.Complete] } }

/-- C9 counterexample: on a fresh start the FIRST emitted event is
StateChanged(Idle, Listening) and Started comes second - the claim's order
(Started before StateChanged) does not hold.  start (voice_session.rs
144-148) calls set_state before sending Started. -/
theorem c9_counterexample :
    ((c9Session.start).toOption.map (fun s => s.events)) =
      some [VoiceSessionEvent.StateChanged VoiceSessionState.Idle VoiceSessionState.Listening,
            VoiceSessionEvent.Started "test",
            VoiceSessionEvent.StateChanged VoiceSessionState.Listening
              VoiceSessionState.Speaking,
            VoiceSessionEvent.Speaking "Namaste, main Priya bol rahi hoon",
            VoiceSessionEvent.StateChanged VoiceSessionState.Speaking
              VoiceSessionState.Listening] ∧
    ((c9Session.start).toOption.map (fun s => s.events.head?)) ≠
      some (some (VoiceSessionEvent.Started "test")) := by
  refine ⟨by decide, by decide⟩

/-- The speak loop only appends events. -/
theorem ttsLoopAux_events (q : List TtsEvent) (s s' : VoiceSession)
    (h : VoiceSession.ttsLoopAux s q = Except.ok s') :
    ∃ tail, s'.events = s.events ++ tail := by
  induction q generalizing s with
  | nil =>
    refine ⟨[], ?_⟩
    have : s' = s := by
      have := h
      unfold VoiceSession.ttsLoopAux at this
      exact (Except.ok.inj this).symm
    rw [this, List.append_nil]
  | cons e rest ih =>
    cases e with
    | Audio samples isFinal seq =>
      by_cases hf : isFinal = true
      · have : s' = s.emit (VoiceSessionEvent.AudioChunk samples s.tts.sampleRate) := by
          have := h
          unfold VoiceSession.ttsLoopAux at this
          rw [hf] at this
          dsimp only [if_true] at this
          exact (Except.ok.inj this).symm
        exact ⟨[VoiceSessionEvent.AudioChunk samples s.tts.sampleRate],
          by rw [this]; rfl⟩
      · have hrec : VoiceSession.ttsLoopAux
            (s.emit (VoiceSessionEvent.AudioChunk samples s.tts.sampleRate)) rest =
            Except.ok s' := by
          have := h
          unfold VoiceSession.ttsLoopAux at this
          rw [Bool.of_not_eq_true hf] at this
          exact this
        obtain ⟨tail, htail⟩ := ih _ hrec
        exact ⟨VoiceSessionEvent.AudioChunk samples s.tts.sampleRate :: tail,
          by rw [htail]; simp [VoiceSession.emit]⟩
    | Complete =>
      have : s' = s := by
        have := h
        unfold VoiceSession.ttsLoopAux at this
        exact (Except.ok.inj this).symm
      exact ⟨[], by rw [this, List.append_nil]⟩
    | BargedIn ms =>
      have : s' = s.emit VoiceSessionEvent.BargedIn := by
        have := h
        unfold VoiceSession.ttsLoopAux at this
        exact (Except.ok.inj this).symm
      exact ⟨[VoiceSessionEvent.BargedIn], by rw [this]; rfl⟩
    | Error msg =>
      have := h
      unfold VoiceSession.ttsLoopAux at this
      exact absurd this (by simp)

/-- C9 amended: when start() on a fresh Idle session succeeds, the emitted
event sequence begins StateChanged(Idle, Listening), then Started, then
StateChanged(Listening, Speaking), then Speaking{greeting} - i.e. the
StateChanged for Idle to Listening precedes Started. -/
theorem c9_start_event_order (s0 s' : VoiceSession)
    (hidle : s0.state = VoiceSessionState.Idle)
    (hev : s0.events = [])
    (h : s0.start = Except.ok s') :
    s'.events.take 4 =
      [VoiceSessionEvent.StateChanged VoiceSessionState.Idle VoiceSessionState.Listening,
       VoiceSessionEvent.Started s0.sessionId,
       VoiceSessionEvent.StateChanged VoiceSessionState.Listening VoiceSessionState.Speaking,
       VoiceSessionEvent.Speaking s0.greeting] := by
  unfold VoiceSession.start VoiceSession.speak at h
  dsimp only at h
  set s1 := s0.setState VoiceSessionState.Listening with hs1
  set s2 := s1.emit (VoiceSessionEvent.Started s0.sessionId) with hs2
  set s3 := s2.setState VoiceSessionState.Speaking with hs3
  set s4 := s3.emit (VoiceSessionEvent.Speaking s0.greeting) with hs4
  have he1 : s1.events =
      [VoiceSessionEvent.StateChanged VoiceSessionState.Idle VoiceSessionState.Listening] := by
    rw [hs1]
    unfold VoiceSession.setState
    rw [hidle]
    dsimp only
    rw [if_pos (by decide)]
    unfold VoiceSession.emit
    rw [hev]
    rfl
  have hst1 : s1.state = VoiceSessionState.Listening := by
    rw [hs1]
    unfold VoiceSession.setState
    rw [hidle]
    dsimp only
    rw [if_pos (by decide)]
    rfl
  have he2 : s2.events = s1.events ++ [VoiceSessionEvent.Started s0.sessionId] := rfl
  have hst2 : s2.state = s1.state := rfl
  have he3 : s3.events = s2.events ++
      [VoiceSessionEvent.StateChanged VoiceSessionState.Listening
        VoiceSessionState.Speaking] := by
    rw [hs3]
    unfold VoiceSession.setState
    rw [hst2, hst1]
    dsimp only
    rw [if_pos (by decide)]
    rfl
  have he4 : s4.events = s3.events ++ [VoiceSessionEvent.Speaking s0.greeting] := rfl
  rcases hloop : VoiceSession.ttsLoopAux s4 s4.tts.queue with e | s5
  · rw [hloop] at h
    exact absurd h (by simp)
  · rw [hloop] at h
    dsimp only at h
    obtain ⟨tail, htail⟩ := ttsLoopAux_events s4.tts.queue s4 s5 hloop
    have hs' : s' = s5.setState VoiceSessionState.Listening := (Except.ok.inj h).symm
    have hev' : ∃ tail2, s'.events = s5.events ++ tail2 := by
      rw [hs']
      unfold VoiceSession.setState
      by_cases hc : s5.state ≠ VoiceSessionState.Listening
      · rw [if_pos hc]
        exact ⟨[VoiceSessionEvent.StateChanged s5.state VoiceSessionState.Listening], rfl⟩
      · rw [if_neg hc]
        exact ⟨[], by rw [List.append_nil]⟩
    obtain ⟨tail2, htail2⟩ := hev'
    rw [htail2, htail, he4, he3, he2, he1]
    rfl

/-- C9 amended witness at the concrete fresh session. -/
theorem c9_start_event_order_witness :
    ∃ s', c9Session.start = Except.ok s' ∧
      s'.events.take 4 =
        [VoiceSessionEvent.StateChanged VoiceSessionState.Idle VoiceSessionState.Listening,
         VoiceSessionEvent.Started c9Session.sessionId,
         VoiceSessionEvent.StateChanged VoiceSessionState.Listening
           VoiceSessionState.Speaking,
         VoiceSessionEvent.Speaking c9Session.greeting] := by
  refine ⟨(c9Session.start).toOption.get (by decide), ?_, ?_⟩
  · rfl
  · exact c9_start_event_order c9Session _ (by decide) (by decide) (by rfl)

end VoiceAgent
